import Mathlib

/-!
Shallow embedding of the NeverEnding 2D geometry kernel
(`src/geometry/2D.ts`), its small `lib/utils` helpers, and the spatial
index (`src/containers/QuadTree.ts`), together with proofs about the
behaviours claimed in the specification.

Modelling conventions:
* JavaScript numbers are modelled as exact rationals (`ℚ`).  All the
  arithmetic appearing in the verified paths (comparisons, `+`, `-`, `*`,
  `/`, `Math.abs`, `Math.pow(_, 2)`) is exact on the concrete inputs of
  the claims, so `ℚ` is a faithful model there.
* `Math.sqrt` is modelled by an uninterpreted parameter `S : ℚ → ℚ`
  threaded through every function whose source calls `Math.sqrt`.
  Theorems either hold for every `S` (when the value of a square root is
  irrelevant to the result) or assume the values of `S` at the perfect
  squares actually reached (where IEEE-754 `Math.sqrt` is exact).
* The trigonometric round-trip (`polar`/`cartesian`) is modelled over `ℝ`
  in a separate small development at the end, since `Math.atan2`,
  `Math.cos` and `Math.sin` have no rational model.
* JavaScript truthiness: `QuadTree.query` uses `Array` values directly as
  `if` conditions.  In JavaScript every object — including an empty
  array — is truthy; `jsTruthy` records that coercion.
-/

namespace NeverEnding

attribute [local semireducible] Rat.add Rat.sub Rat.mul Rat.inv

/-- Error margin for floating points (`Vector2D.epsilon = 0.001`). -/
def Vector2D.epsilon : ℚ := 1 / 1000

/-- The 2D vector value type (`class Vector2D`), with number fields
modelled as rationals. -/
structure Vector2D where
  x : ℚ
  y : ℚ
deriving DecidableEq, Repr

/-- Vector2D.magnitudeSquared: `x*x + y*y`. -/
def Vector2D.magnitudeSquared (v : Vector2D) : ℚ :=
  v.x * v.x + v.y * v.y

/-- Vector2D.magnitude: `Math.sqrt(x*x + y*y)`, with `Math.sqrt`
modelled by the parameter `S`. -/
def Vector2D.magnitude (S : ℚ → ℚ) (v : Vector2D) : ℚ :=
  S (v.x * v.x + v.y * v.y)

/-- Vector2D.normalized: multiplication by `1 / magnitude`. -/
def Vector2D.normalized (S : ℚ → ℚ) (v : Vector2D) : Vector2D :=
  let rad := 1 / v.magnitude S
  ⟨v.x * rad, v.y * rad⟩

/-- Vector2D.perp: `(-y, x)`. -/
def Vector2D.perp (v : Vector2D) : Vector2D :=
  ⟨v.y * (-1), v.x⟩

/-- Vector2D.dot. -/
def Vector2D.dot (a v : Vector2D) : ℚ :=
  a.x * v.x + a.y * v.y

/-- Vector2D.cross, exactly as the source computes it:
`this.x * v.x - this.y * v.y`.  (Note this is not the standard 2D cross
product `x1*y2 - y1*x2`; we embed the source verbatim.) -/
def Vector2D.cross (a v : Vector2D) : ℚ :=
  a.x * v.x - a.y * v.y

/-- Vector2D.multiply with a number argument. -/
def Vector2D.multiply (a : Vector2D) (s : ℚ) : Vector2D :=
  ⟨a.x * s, a.y * s⟩

/-- Vector2D.multiply with a Vector2D argument (elementwise). -/
def Vector2D.multiplyVec (a v : Vector2D) : Vector2D :=
  ⟨a.x * v.x, a.y * v.y⟩

/-- Vector2D.addBy with a number argument. -/
def Vector2D.addByNum (a : Vector2D) (s : ℚ) : Vector2D :=
  ⟨a.x + s, a.y + s⟩

/-- Vector2D.addBy with a Vector2D argument. -/
def Vector2D.addBy (a v : Vector2D) : Vector2D :=
  ⟨a.x + v.x, a.y + v.y⟩

/-- Vector2D.subtractBy with a Vector2D argument. -/
def Vector2D.subtractBy (a v : Vector2D) : Vector2D :=
  ⟨a.x - v.x, a.y - v.y⟩

/-- Vector2D.subtractFrom with a Vector2D argument: `v - this`. -/
def Vector2D.subtractFrom (a v : Vector2D) : Vector2D :=
  ⟨v.x - a.x, v.y - a.y⟩

/-- Vector2D.eq: exact componentwise equality (`===`). -/
def Vector2D.eq (a v : Vector2D) : Bool :=
  decide (a.x = v.x) && decide (a.y = v.y)

/-- Vector2D.neq, exactly as the source computes it:
`this.x === v.x && this.y === v.y` (the same expression as `eq`,
not its negation). -/
def Vector2D.neq (a v : Vector2D) : Bool :=
  decide (a.x = v.x) && decide (a.y = v.y)

/-- Vector2D.filterDuplicateVectors: a left fold that drops a vector when
some earlier kept vector is within `epsilon` on both coordinates. -/
def Vector2D.filterDuplicateVectors (vectors : List Vector2D) : List Vector2D :=
  vectors.foldl
    (fun prev currV =>
      if prev.any (fun p =>
          decide (|currV.x - p.x| < Vector2D.epsilon) &&
          decide (|currV.y - p.y| < Vector2D.epsilon)) then
        prev
      else
        prev ++ [currV])
    []

/-- Modelled from the spec: the scalar `clamp` helper imported from
`lib/utils`, whose source file is not part of the sources at hand (only
`minMax` and the random helpers are).  The spec Section 3 gives
`clamp(min,max) = max(min, min(max, self))`; the scalar version clamps a
number into `[lo, hi]`. -/
def clamp (value lo hi : ℚ) : ℚ :=
  max lo (min hi value)

/-- The `minMax` helper from `lib/utils`: returns `[min, max]`. -/
def minMax (first second : ℚ) : ℚ × ℚ :=
  (min first second, max first second)

/-- Point shape variant (`class Point`). -/
structure Point where
  position : Vector2D
deriving DecidableEq, Repr

/-- Line shape variant (`class Line`); `endP` stands for the source's
field `end` (a reserved word in Lean). -/
structure Line where
  start : Vector2D
  endP : Vector2D
deriving DecidableEq, Repr

/-- Rectangle shape variant (`class Rectangle`). -/
structure Rectangle where
  position : Vector2D
  dimensions : Vector2D
deriving DecidableEq, Repr

/-- Circle shape variant (`class Circle`). -/
structure Circle where
  position : Vector2D
  radius : ℚ
deriving DecidableEq, Repr

/-- Ray shape variant (`class Ray`). -/
structure Ray where
  origin : Vector2D
  direction : Vector2D
deriving DecidableEq, Repr

/-- Triangle shape variant (`class Triangle`); the source stores the
three vertices in the array `position`. -/
structure Triangle where
  p0 : Vector2D
  p1 : Vector2D
  p2 : Vector2D
deriving DecidableEq, Repr

/-- The closed set of shapes (`abstract class Shape` with its six
subclasses, discriminated by the `isX` type guards). -/
inductive Shape where
  | point (p : Point)
  | line (l : Line)
  | rect (r : Rectangle)
  | circle (c : Circle)
  | ray (r : Ray)
  | triangle (t : Triangle)
deriving DecidableEq, Repr

/-- Line.vector: `end - start`. -/
def Line.vector (l : Line) : Vector2D :=
  l.endP.subtractBy l.start

/-- Line.side: which side of the line a point lies on (-1, 1 or 0),
computed with the source's `cross`. -/
def Line.side (l : Line) (point : Vector2D) : ℚ :=
  let d := l.vector.cross (l.start.subtractFrom point)
  if d < 0 then -1 else if d > 0 then 1 else 0

/-- Rectangle.top side. -/
def Rectangle.top (r : Rectangle) : Line :=
  ⟨r.position, ⟨r.position.x + r.dimensions.x, r.position.y⟩⟩

/-- Rectangle.bottom side. -/
def Rectangle.bottom (r : Rectangle) : Line :=
  ⟨⟨r.position.x, r.position.y + r.dimensions.y⟩, r.position.addBy r.dimensions⟩

/-- Rectangle.left side. -/
def Rectangle.left (r : Rectangle) : Line :=
  ⟨r.position, ⟨r.position.x, r.position.y + r.dimensions.y⟩⟩

/-- Rectangle.right side. -/
def Rectangle.right (r : Rectangle) : Line :=
  ⟨⟨r.position.x + r.dimensions.x, r.position.y⟩, r.position.addBy r.dimensions⟩

/-- The four sides of a Rectangle in the order visited by the source's
loops `for (i = 0; i < sideCount(); ++i) side(i)`: top, right, bottom,
left (`side` masks the index with `0b11`). -/
def Rectangle.sides (r : Rectangle) : List Line :=
  [r.top, r.right, r.bottom, r.left]

/-- Triangle.side i, for i = 0, 1, 2:
`Line(position[i % 3], position[(i+1) % 3])`. -/
def Triangle.sides (t : Triangle) : List Line :=
  [⟨t.p0, t.p1⟩, ⟨t.p1, t.p2⟩, ⟨t.p2, t.p0⟩]

/-- Line.#closestPoint: clamp the projection parameter into `[0,1]` and
walk that far along the segment. -/
def Line.closestPoint (l : Line) (p : Vector2D) : Vector2D :=
  let len := l.vector
  let unitDis := clamp (len.dot (p.subtractBy l.start) / len.magnitudeSquared) 0 1
  l.start.addBy (len.multiply unitDis)

/-- Point.#containsPoint: squared distance below epsilon. -/
def Point.containsPoint (a : Point) (b : Point) : Bool :=
  decide ((a.position.subtractBy b.position).magnitudeSquared < Vector2D.epsilon)

/-- Line.#containsPoint: colinearity within epsilon, then projection
parameter in `[0,1]`. -/
def Line.containsPoint (l : Line) (p : Vector2D) : Bool :=
  let d := (p.x - l.start.x) * (l.endP.y - l.start.y) -
    (p.y - l.start.y) * (l.endP.x - l.start.x)
  if |d| < Vector2D.epsilon then
    let unit := l.vector.dot (p.subtractBy l.start) / l.vector.magnitudeSquared
    decide (unit ≥ 0) && decide (unit ≤ 1)
  else
    false

/-- Rectangle.#containsPoint: the source's negated four-comparison test. -/
def Rectangle.containsPoint (r : Rectangle) (p : Vector2D) : Bool :=
  !(decide (p.x < r.position.x) || decide (p.y < r.position.y) ||
    decide (p.x > r.position.x + r.dimensions.x) ||
    decide (p.y > r.position.y + r.dimensions.y))

/-- Circle.#containsPoint: squared center distance at most radius
squared. -/
def Circle.containsPoint (c : Circle) (p : Vector2D) : Bool :=
  decide ((c.position.subtractBy p).magnitudeSquared ≤ c.radius ^ 2)

/-- Ray.#containsPoint: project onto the direction and compare the
deviation (a `Math.sqrt` of the squared deviation, modelled through `S`)
with epsilon. -/
def Ray.containsPoint (S : ℚ → ℚ) (r : Ray) (p : Vector2D) : Bool :=
  let originToPoint := p.subtractBy r.origin
  let dotProduct := originToPoint.dot r.direction
  if dotProduct < 0 then
    false
  else
    let projection : Vector2D := ⟨r.direction.x * dotProduct, r.direction.y * dotProduct⟩
    let distance := S ((projection.x - originToPoint.x) ^ 2 +
      (projection.y - originToPoint.y) ^ 2)
    decide (distance < Vector2D.epsilon)

/-- Triangle.#containsPoint: the signed-barycentric test of the source
(`A`, `sign`, `s`, `v`, `s + v <= 2*A*sign`). -/
def Triangle.containsPoint (t : Triangle) (p : Vector2D) : Bool :=
  let A := (1/2 : ℚ) *
    (t.p1.y * (-1) * t.p2.x + t.p0.y * (t.p1.x * (-1) + t.p2.x) +
      t.p0.x * (t.p1.y - t.p2.y) + t.p1.x * t.p2.y)
  let sign : ℚ := if A < 0 then -1 else 1
  let s := (t.p0.y * t.p2.x - t.p0.x * t.p2.y +
    (t.p2.y - t.p0.y) * p.x + (t.p0.x - t.p2.x) * p.y) * sign
  let v := (t.p0.x * t.p1.y - t.p0.y * t.p1.x +
    (t.p0.y - t.p1.y) * p.x + (t.p1.x - t.p0.x) * p.y) * sign
  decide (s ≥ 0) && decide (v ≥ 0) && decide (s + v ≤ 2 * A * sign)

/-- Triangle.#closestPoint: the nearest of the closest points on the
three segments `(p0,p1)`, `(p0,p2)`, `(p1,p2)` (the source reuses and
mutates one `Line` object, producing exactly these three segments). -/
def Triangle.closestPoint (t : Triangle) (p : Vector2D) : Vector2D :=
  let pc0 := Line.closestPoint ⟨t.p0, t.p1⟩ p
  let d0 := (pc0.subtractBy p).magnitudeSquared
  let pc1 := Line.closestPoint ⟨t.p0, t.p2⟩ p
  let d1 := (pc1.subtractBy p).magnitudeSquared
  let pc2 := Line.closestPoint ⟨t.p1, t.p2⟩ p
  let d2 := (pc2.subtractBy p).magnitudeSquared
  if d0 ≤ d1 ∧ d0 ≤ d2 then pc0
  else if d1 ≤ d0 ∧ d1 ≤ d2 then pc1
  else pc2

/-- Line.#overlapsLine: the two-parameter segment intersection test.
The source divides by `distance` without a zero test; in JavaScript a
zero denominator yields `Infinity`/`NaN` and the comparisons then come
out false, while in `ℚ` division by zero yields `0`.  No verified claim
evaluates this function on parallel segments where that difference could
show. -/
def Line.overlapsLine (t : Line) (shape : Line) : Bool :=
  let distance := (shape.endP.y - shape.start.y) * (t.endP.x - t.start.x) -
    (shape.endP.x - shape.start.x) * (t.endP.y - t.start.y)
  let unitA := ((shape.endP.x - shape.start.x) * (t.start.y - shape.start.y) -
    (shape.endP.y - shape.start.y) * (t.start.x - shape.start.x)) / distance
  let unitB := ((t.endP.x - t.start.x) * (t.start.y - shape.start.y) -
    (t.endP.y - t.start.y) * (t.start.x - shape.start.x)) / distance
  decide (unitA ≥ 0) && decide (unitA ≤ 1) && decide (unitB ≥ 0) && decide (unitB ≤ 1)

/-- Line.#containsLine: the line overlaps both endpoints of the other
line (the source routes each endpoint through `overlaps` on a fresh
`Point`, which dispatches back to `#containsPoint`). -/
def Line.containsLine (t : Line) (shape : Line) : Bool :=
  t.containsPoint shape.start && t.containsPoint shape.endP

/-- Rectangle.#containsLine: contains both endpoints. -/
def Rectangle.containsLine (r : Rectangle) (l : Line) : Bool :=
  r.containsPoint l.start && r.containsPoint l.endP

/-- Rectangle.#containsRectangle: nested-interval comparisons. -/
def Rectangle.containsRectangle (r : Rectangle) (shape : Rectangle) : Bool :=
  decide (shape.position.x ≥ r.position.x) &&
  decide (shape.position.x + shape.dimensions.x ≤ r.position.x + r.dimensions.x) &&
  decide (shape.position.y ≥ r.position.y) &&
  decide (shape.position.y + shape.dimensions.y ≤ r.position.y + r.dimensions.y)

/-- Rectangle.#containsTriangle: contains all three sides as lines. -/
def Rectangle.containsTriangle (r : Rectangle) (t : Triangle) : Bool :=
  r.containsLine ⟨t.p0, t.p1⟩ && r.containsLine ⟨t.p1, t.p2⟩ && r.containsLine ⟨t.p2, t.p0⟩

/-- Rectangle.#containsCircle: inset-interval comparisons, exactly as in
the source. -/
def Rectangle.containsCircle (r : Rectangle) (c : Circle) : Bool :=
  decide (r.position.x + c.radius ≤ c.position.x) &&
  decide (c.position.x ≤ r.position.x + r.dimensions.x - c.radius) &&
  decide (r.position.y + c.radius ≤ c.position.y) &&
  decide (c.position.y ≤ r.position.y + r.dimensions.y - c.radius)

/-- Rectangle.contains: dispatch on the dynamic variant of the argument
(a Rectangle never contains a Ray). -/
def Rectangle.contains (r : Rectangle) : Shape → Bool
  | .point p => r.containsPoint p.position
  | .line l => r.containsLine l
  | .rect shape => r.containsRectangle shape
  | .triangle t => r.containsTriangle t
  | .circle c => r.containsCircle c
  | .ray _ => false

/-- Circle.#containsLine: contains both endpoints. -/
def Circle.containsLine (c : Circle) (l : Line) : Bool :=
  c.containsPoint l.start && c.containsPoint l.endP

/-- Circle.#containsRectangle, embedded exactly as written in the
source — including its second corner `(position.x + position.y,
position.y)`, which adds the rectangle's `position.y` where the width
was evidently intended. -/
def Circle.containsRectangle (c : Circle) (shape : Rectangle) : Bool :=
  c.containsPoint shape.position &&
  c.containsPoint ⟨shape.position.x + shape.position.y, shape.position.y⟩ &&
  c.containsPoint ⟨shape.position.x, shape.position.y + shape.dimensions.y⟩ &&
  c.containsPoint (shape.position.addBy shape.dimensions)

/-- Circle.#containsTriangle: contains all three vertices. -/
def Circle.containsTriangle (c : Circle) (t : Triangle) : Bool :=
  c.containsPoint t.p0 && c.containsPoint t.p1 && c.containsPoint t.p2

/-- Circle.#containsCircle: `sqrt(center distance squared) + r <= R`,
with `Math.sqrt` modelled through `S`. -/
def Circle.containsCircle (S : ℚ → ℚ) (c : Circle) (shape : Circle) : Bool :=
  decide (S ((shape.position.x - c.position.x) ^ 2 +
    (shape.position.y - c.position.y) ^ 2) + shape.radius ≤ c.radius)

/-- Circle.contains: dispatch on the dynamic variant of the argument. -/
def Circle.contains (S : ℚ → ℚ) (c : Circle) : Shape → Bool
  | .point p => c.containsPoint p.position
  | .line l => c.containsLine l
  | .rect r => c.containsRectangle r
  | .triangle t => c.containsTriangle t
  | .circle shape => Circle.containsCircle S c shape
  | .ray _ => false

/-- Triangle.#containsLine: contains both endpoints. -/
def Triangle.containsLine (t : Triangle) (l : Line) : Bool :=
  t.containsPoint l.start && t.containsPoint l.endP

/-- Triangle.#containsRectangle: contains all four corners. -/
def Triangle.containsRectangle (t : Triangle) (shape : Rectangle) : Bool :=
  t.containsPoint shape.position &&
  t.containsPoint (shape.position.addBy shape.dimensions) &&
  t.containsPoint ⟨shape.position.x + shape.dimensions.x, shape.position.y⟩ &&
  t.containsPoint ⟨shape.position.x, shape.position.y + shape.dimensions.y⟩

/-- Triangle.#containsTriangle: contains all three vertices. -/
def Triangle.containsTriangle (t : Triangle) (shape : Triangle) : Bool :=
  t.containsPoint shape.p0 && t.containsPoint shape.p1 && t.containsPoint shape.p2

/-- Triangle.#containsCircle: contains the center and the squared
distance from the center to the triangle's closest point is at least the
radius squared. -/
def Triangle.containsCircle (t : Triangle) (c : Circle) : Bool :=
  t.containsPoint c.position &&
  decide ((c.position.subtractBy (t.closestPoint c.position)).magnitudeSquared ≥
    c.radius ^ 2)

/-- Triangle.contains: dispatch on the dynamic variant of the argument. -/
def Triangle.contains (t : Triangle) : Shape → Bool
  | .point p => t.containsPoint p.position
  | .line l => t.containsLine l
  | .rect r => t.containsRectangle r
  | .triangle shape => t.containsTriangle shape
  | .circle c => t.containsCircle c
  | .ray _ => false

/-- Point.contains: a Point only contains a coincident Point. -/
def Point.contains (a : Point) : Shape → Bool
  | .point b => a.containsPoint b
  | _ => false

/-- Line.contains: a Line contains a Point on it or a sub-segment;
nothing else. -/
def Line.contains (l : Line) : Shape → Bool
  | .point p => l.containsPoint p.position
  | .line shape => l.containsLine shape
  | _ => false

/-- Ray.contains: a Ray only contains a Point. -/
def Ray.contains (S : ℚ → ℚ) (r : Ray) : Shape → Bool
  | .point p => Ray.containsPoint S r p.position
  | _ => false

/-- Shape.contains: double dispatch on the receiver's variant. -/
def Shape.contains (S : ℚ → ℚ) : Shape → Shape → Bool
  | .point a, b => a.contains b
  | .line a, b => a.contains b
  | .rect a, b => a.contains b
  | .circle a, b => Circle.contains S a b
  | .ray a, b => Ray.contains S a b
  | .triangle a, b => a.contains b

/-- Rectangle.#overlapsLine: an endpoint inside, or some side crosses. -/
def Rectangle.overlapsLine (r : Rectangle) (shape : Line) : Bool :=
  r.containsPoint shape.start || r.containsPoint shape.endP ||
  Line.overlapsLine r.top shape || Line.overlapsLine r.bottom shape ||
  Line.overlapsLine r.left shape || Line.overlapsLine r.right shape

/-- Rectangle.#overlapsRectangle: the classic AABB four-inequality test. -/
def Rectangle.overlapsRectangle (r : Rectangle) (shape : Rectangle) : Bool :=
  decide (r.position.x ≤ shape.position.x + shape.dimensions.x) &&
  decide (r.position.x + r.dimensions.x ≥ shape.position.x) &&
  decide (r.position.y ≤ shape.position.y + shape.dimensions.y) &&
  decide (r.position.y + r.dimensions.y ≥ shape.position.y)

/-- Circle.#overlapsLine: squared distance from the center to the
segment's closest point at most radius squared. -/
def Circle.overlapsLine (c : Circle) (shape : Line) : Bool :=
  let closest := Line.closestPoint shape c.position
  decide ((c.position.subtractBy closest).magnitudeSquared ≤ c.radius * c.radius)

/-- Circle.#overlapsRectangle: clamp the center into the rectangle and
compare the squared distance with radius squared (strictly). -/
def Circle.overlapsRectangle (c : Circle) (shape : Rectangle) : Bool :=
  let overlap := ((⟨clamp c.position.x shape.position.x (shape.position.x + shape.dimensions.x),
      clamp c.position.y shape.position.y (shape.position.y + shape.dimensions.y)⟩ : Vector2D).subtractBy
    c.position).magnitudeSquared
  decide (overlap - c.radius ^ 2 < 0)

/-- Circle.#overlapsCircle: center distance squared at most the squared
radius sum. -/
def Circle.overlapsCircle (c : Circle) (shape : Circle) : Bool :=
  decide ((c.position.subtractBy shape.position).magnitudeSquared ≤
    (c.radius + shape.radius) ^ 2)

/-- Triangle.#overlapsLine: the line's start is inside, or some side
overlaps the line. -/
def Triangle.overlapsLine (t : Triangle) (shape : Line) : Bool :=
  t.containsPoint shape.start ||
  Line.overlapsLine ⟨t.p0, t.p1⟩ shape ||
  Line.overlapsLine ⟨t.p1, t.p2⟩ shape ||
  Line.overlapsLine ⟨t.p2, t.p0⟩ shape

/-- Triangle.#overlapsRectangle: overlaps one of the four sides, or the
triangle's first vertex is inside the rectangle. -/
def Triangle.overlapsRectangle (t : Triangle) (shape : Rectangle) : Bool :=
  t.overlapsLine shape.top || t.overlapsLine shape.bottom ||
  t.overlapsLine shape.left || t.overlapsLine shape.right ||
  shape.containsPoint t.p0

/-- Triangle.#overlapsTriangle: overlaps one of the other's sides, or
the other contains this triangle's first vertex. -/
def Triangle.overlapsTriangle (t : Triangle) (shape : Triangle) : Bool :=
  t.overlapsLine ⟨shape.p0, shape.p1⟩ || t.overlapsLine ⟨shape.p1, shape.p2⟩ ||
  t.overlapsLine ⟨shape.p2, shape.p0⟩ || shape.containsPoint t.p0

/-- Triangle.#overlapsCircle: contains the center, or the centre is
within the radius of the triangle's closest point. -/
def Triangle.overlapsCircle (t : Triangle) (c : Circle) : Bool :=
  t.containsPoint c.position ||
  decide ((c.position.subtractBy (t.closestPoint c.position)).magnitudeSquared ≤
    c.radius ^ 2)

/-- Point.overlaps: dispatch on the dynamic variant.  The Rectangle,
Triangle and Circle arms call the Point's own `#containsX` stubs (which
are constantly false), exactly as the source does. -/
def Point.overlaps (a : Point) : Shape → Bool
  | .point b => a.containsPoint b
  | .line l => l.containsPoint a.position
  | .rect _ => false
  | .triangle _ => false
  | .circle _ => false
  | .ray _ => false

/-- Line.overlaps: dispatch on the dynamic variant (delegating to the
symmetric overlap for Rectangle, Triangle and Circle; false for Ray). -/
def Line.overlaps (l : Line) : Shape → Bool
  | .point p => l.containsPoint p.position
  | .line shape => l.overlapsLine shape
  | .rect r => r.overlapsLine l
  | .triangle t => t.overlapsLine l
  | .circle c => c.overlapsLine l
  | .ray _ => false

/-- Rectangle.overlaps: dispatch on the dynamic variant. -/
def Rectangle.overlaps (r : Rectangle) : Shape → Bool
  | .point p => r.containsPoint p.position
  | .line l => r.overlapsLine l
  | .rect shape => r.overlapsRectangle shape
  | .triangle t => t.overlapsRectangle r
  | .circle c => c.overlapsRectangle r
  | .ray _ => false

/-- Circle.overlaps: dispatch on the dynamic variant. -/
def Circle.overlaps (c : Circle) : Shape → Bool
  | .point p => c.containsPoint p.position
  | .line l => c.overlapsLine l
  | .rect r => c.overlapsRectangle r
  | .triangle t => t.overlapsCircle c
  | .circle shape => c.overlapsCircle shape
  | .ray _ => false

/-- Triangle.overlaps: dispatch on the dynamic variant. -/
def Triangle.overlaps (t : Triangle) : Shape → Bool
  | .point p => t.containsPoint p.position
  | .line l => t.overlapsLine l
  | .rect r => t.overlapsRectangle r
  | .triangle shape => t.overlapsTriangle shape
  | .circle c => t.overlapsCircle c
  | .ray _ => false

/-- Shape.overlaps: double dispatch on the receiver's variant; a Ray
overlaps nothing by convention. -/
def Shape.overlaps : Shape → Shape → Bool
  | .point a, b => a.overlaps b
  | .line a, b => a.overlaps b
  | .rect a, b => a.overlaps b
  | .circle a, b => a.overlaps b
  | .ray _, _ => false
  | .triangle a, b => a.overlaps b

/-- Line.#intersectsPoint: the point's position when the line contains
it. -/
def Line.intersectsPoint (l : Line) (p : Point) : List Vector2D :=
  if l.containsPoint p.position then [p.position] else []

/-- Line.#intersectsLine: solve the 2×2 system with the source's `cross`
(so `rd` is `x1*x2 - y1*y2` of the two direction vectors), reject
parameters outside `[0,1]`, and build the point as
`start.addBy(rn).multiply(vector)` exactly as the source does. -/
def Line.intersectsLine (t : Line) (shape : Line) : List Vector2D :=
  let rd := t.vector.cross shape.vector
  if rd = 0 then []
  else
    let inverseRd := 1 / rd
    let rn := ((shape.endP.x - shape.start.x) * (t.start.y - shape.start.y) -
      (shape.endP.y - shape.start.y) * (t.start.x - shape.start.x)) * inverseRd
    let sn := ((t.endP.x - t.start.x) * (t.start.y - shape.start.y) -
      (t.endP.y - t.start.y) * (t.start.x - shape.start.x)) * inverseRd
    if rn < 0 ∨ rn > 1 ∨ sn < 0 ∨ sn > 1 then []
    else [(t.start.addByNum rn).multiplyVec t.vector]

/-- Ray.#intersectsPoint: within epsilon of the carrier line's side
test. -/
def Ray.intersectsPoint (r : Ray) (p : Point) : List Vector2D :=
  let line : Line := ⟨r.origin, r.origin.addBy r.direction⟩
  if |line.side p.position| < Vector2D.epsilon then [p.position] else []

/-- Ray.#intersectsLine: parametric crossing with the source's `cross`;
co-linear rays answer `[origin]`. -/
def Ray.intersectsLine (r : Ray) (shape : Line) : List Vector2D :=
  let lineDir := shape.vector
  let lineToOrigin := shape.start.subtractBy r.origin
  let crossProduct1 := r.direction.cross lineDir
  let crossProduct2 := lineToOrigin.cross lineDir
  if crossProduct1 = 0 then
    if crossProduct2 = 0 then [r.origin] else []
  else
    let crossProduct3 := lineToOrigin.cross r.direction
    let t1 := crossProduct2 / crossProduct1
    let t2 := crossProduct3 / crossProduct1
    if t1 ≥ 0 ∧ t2 ≥ 0 ∧ t2 ≤ 1 then
      [(r.origin.addBy r.direction).multiply t1]
    else []

/-- Ray.#intersectsRay: parametric crossing of two rays. -/
def Ray.intersectsRay (r : Ray) (shape : Ray) : List Vector2D :=
  let originToOrigin := shape.origin.subtractBy r.origin
  let crossProduct1 := r.direction.cross shape.direction
  let crossProduct2 := originToOrigin.cross shape.direction
  if crossProduct1 = 0 then
    if crossProduct2 = 0 then [r.origin] else []
  else
    let crossProduct3 := originToOrigin.cross r.direction
    let t1 := crossProduct2 / crossProduct1
    let t2 := crossProduct3 / crossProduct1
    if t1 ≥ 0 ∧ t2 ≥ 0 then [r.origin.addBy (r.direction.multiply t1)] else []

/-- Ray.#intersectsCircle: the quadratic `A s² + B s + C = 0` along the
ray parameter; roots behind the origin are dropped and the two-root case
is ordered by `minMax`. -/
def Ray.intersectsCircle (S : ℚ → ℚ) (r : Ray) (shape : Circle) : List Vector2D :=
  let A := r.direction.magnitudeSquared
  let B := 2 * (r.origin.dot r.direction - shape.position.dot r.direction)
  let C := shape.position.magnitudeSquared + r.origin.magnitudeSquared -
    2 * shape.position.x * r.origin.x - 2 * shape.position.y * r.origin.y -
    shape.radius ^ 2
  let D := B ^ 2 - 4 * A * C
  if D < 0 then []
  else
    let sqrtD := S D
    let s1 := (B * (-1) + sqrtD) / (2 * A)
    let s2 := (B * (-1) - sqrtD) / (2 * A)
    if s1 < 0 ∧ s2 < 0 then []
    else if s1 < 0 then [r.origin.addBy (r.direction.multiply s2)]
    else if s2 < 0 then [r.origin.addBy (r.direction.multiply s1)]
    else
      let m := minMax s1 s2
      [r.origin.addBy (r.direction.multiply m.1),
        r.origin.addBy (r.direction.multiply m.2)]

/-- Circle.#intersectsPoint: the point's position when it is within
epsilon of the circle's boundary. -/
def Circle.intersectsPoint (c : Circle) (p : Point) : List Vector2D :=
  if |(p.position.subtractBy c.position).magnitudeSquared - c.radius ^ 2| ≤
      Vector2D.epsilon then
    [p.position]
  else []

/-- Circle.#intersectsLine: reject a segment whose closest point is
outside the circle, return the tangent point for a "kissing" segment,
else build the two candidate crossings exactly as the source does
(including its `addBy`-then-`multiply` composition) and keep those within
epsilon² of the segment. -/
def Circle.intersectsLine (S : ℚ → ℚ) (c : Circle) (shape : Line) : List Vector2D :=
  let closestPoint := Line.closestPoint shape c.position
  if !(c.containsPoint closestPoint) then []
  else
    let d := shape.vector
    let unitLine := d.dot (c.position.subtractBy shape.start) / d.magnitudeSquared
    let closestPointToLine := (shape.start.addByNum unitLine).multiplyVec d
    let distToLine := (c.position.subtractBy closestPointToLine).magnitudeSquared
    if |distToLine - c.radius ^ 2| < Vector2D.epsilon then [closestPointToLine]
    else
      let length := S (c.radius ^ 2 - distToLine)
      let p1 := (closestPointToLine.addBy (shape.vector.normalized S)).multiply length
      let p2 := (closestPointToLine.subtractBy (shape.vector.normalized S)).multiply length
      let i1 : List Vector2D :=
        if (p1.subtractBy (Line.closestPoint shape p1)).magnitudeSquared <
            Vector2D.epsilon ^ 2 then [p1] else []
      let i2 : List Vector2D :=
        if (p2.subtractBy (Line.closestPoint shape p2)).magnitudeSquared <
            Vector2D.epsilon ^ 2 then [p2] else []
      Vector2D.filterDuplicateVectors (i1 ++ i2)

/-- Circle.#intersectsCircle: coincident centers and too-distant or
mutually containing circles yield no points; a center distance squared
equal to the radius sum yields the source's single point; otherwise the
radical-line chord construction. -/
def Circle.intersectsCircle (S : ℚ → ℚ) (c : Circle) (shape : Circle) : List Vector2D :=
  if c.position.eq shape.position then []
  else
    let between := shape.position.subtractBy c.position
    let dist2 := between.magnitudeSquared
    let radiusSum := c.radius + shape.radius
    if dist2 > radiusSum ^ 2 then []
    else if Circle.containsCircle S c shape || Circle.containsCircle S shape c then []
    else if dist2 = radiusSum then
      [(c.position.addBy (between.normalized S)).multiply c.radius]
    else
      let dist := S dist2
      let ccDist := (dist2 + c.radius ^ 2 - shape.radius ^ 2) / (2 * dist)
      let chordCenter := (c.position.addBy (between.normalized S)).multiply ccDist
      let halfChord := (between.normalized S).perp.multiply
        (S (c.radius ^ 2 - ccDist ^ 2))
      [chordCenter.addBy halfChord, chordCenter.subtractBy halfChord]

/-- Rectangle.#intersectsPoint: the position as soon as one side
contains the point. -/
def Rectangle.intersectsPoint (r : Rectangle) (p : Point) : List Vector2D :=
  if r.sides.any (fun side => side.containsPoint p.position) then [p.position]
  else []

/-- Rectangle.#intersectsLine: side-by-side Line intersections,
deduplicated. -/
def Rectangle.intersectsLine (r : Rectangle) (shape : Line) : List Vector2D :=
  Vector2D.filterDuplicateVectors
    (r.sides.foldl (fun acc side => acc ++ Line.intersectsLine side shape) [])

/-- Rectangle.#intersectsRectangle: this rectangle against each side of
the other, deduplicated. -/
def Rectangle.intersectsRectangle (r : Rectangle) (shape : Rectangle) : List Vector2D :=
  Vector2D.filterDuplicateVectors
    (shape.sides.foldl (fun acc side => acc ++ r.intersectsLine side) [])

/-- Triangle.#intersectsPoint: the position as soon as one side contains
the point. -/
def Triangle.intersectsPoint (t : Triangle) (p : Point) : List Vector2D :=
  if t.sides.any (fun side => side.containsPoint p.position) then [p.position]
  else []

/-- Triangle.#intersectsLine: side-by-side Line intersections,
deduplicated. -/
def Triangle.intersectsLine (t : Triangle) (shape : Line) : List Vector2D :=
  Vector2D.filterDuplicateVectors
    (t.sides.foldl (fun acc side => acc ++ Line.intersectsLine side shape) [])

/-- Triangle.#intersectsRectangle: this triangle against each rectangle
side, deduplicated. -/
def Triangle.intersectsRectangle (t : Triangle) (shape : Rectangle) : List Vector2D :=
  Vector2D.filterDuplicateVectors
    (shape.sides.foldl (fun acc side => acc ++ t.intersectsLine side) [])

/-- Triangle.#intersectsTriangle: this triangle against each side of the
other, deduplicated. -/
def Triangle.intersectsTriangle (t : Triangle) (shape : Triangle) : List Vector2D :=
  Vector2D.filterDuplicateVectors
    (shape.sides.foldl (fun acc side => acc ++ t.intersectsLine side) [])

/-- Triangle.#intersectsCircle: the circle against each triangle side,
deduplicated. -/
def Triangle.intersectsCircle (S : ℚ → ℚ) (t : Triangle) (shape : Circle) : List Vector2D :=
  Vector2D.filterDuplicateVectors
    (t.sides.foldl (fun acc side => acc ++ Circle.intersectsLine S shape side) [])

/-- Triangle.#intersectsRay: the ray against each triangle side,
deduplicated. -/
def Triangle.intersectsRay (t : Triangle) (shape : Ray) : List Vector2D :=
  Vector2D.filterDuplicateVectors
    (t.sides.foldl (fun acc side => acc ++ Ray.intersectsLine shape side) [])

/-- Ray.#intersectsRectangle: the ray against each rectangle side,
deduplicated. -/
def Ray.intersectsRectangle (r : Ray) (shape : Rectangle) : List Vector2D :=
  Vector2D.filterDuplicateVectors
    (shape.sides.foldl (fun acc side => acc ++ Ray.intersectsLine r side) [])

/-- Ray.#intersectsTriangle: the ray against each triangle side,
deduplicated. -/
def Ray.intersectsTriangle (r : Ray) (shape : Triangle) : List Vector2D :=
  Vector2D.filterDuplicateVectors
    (shape.sides.foldl (fun acc side => acc ++ Ray.intersectsLine r side) [])

/-- Circle.#intersectsRectangle: the circle against each rectangle side;
the source does not deduplicate here. -/
def Circle.intersectsRectangle (S : ℚ → ℚ) (c : Circle) (shape : Rectangle) : List Vector2D :=
  shape.sides.foldl (fun acc side => acc ++ Circle.intersectsLine S c side) []

/-- Point.intersects: the source calls `unimplemented()` (which only
logs) and then returns `[]` for every argument. -/
def Point.intersects (_ : Point) (_ : Shape) : List Vector2D :=
  []

/-- Line.intersects: dispatch on the dynamic variant, delegating the
Rectangle, Triangle, Circle and Ray cases to the symmetric call as the
source does. -/
def Line.intersects (S : ℚ → ℚ) (l : Line) : Shape → List Vector2D
  | .point p => l.intersectsPoint p
  | .line shape => l.intersectsLine shape
  | .rect r => r.intersectsLine l
  | .triangle t => t.intersectsLine l
  | .circle c => Circle.intersectsLine S c l
  | .ray r => Ray.intersectsLine r l

/-- Rectangle.intersects: dispatch on the dynamic variant; a Rectangle
does not intersect a Ray (fixed empty result). -/
def Rectangle.intersects (S : ℚ → ℚ) (r : Rectangle) : Shape → List Vector2D
  | .point p => r.intersectsPoint p
  | .line l => r.intersectsLine l
  | .rect shape => r.intersectsRectangle shape
  | .triangle t => t.intersectsRectangle r
  | .circle c => Circle.intersectsRectangle S c r
  | .ray _ => []

/-- Circle.intersects: dispatch on the dynamic variant. -/
def Circle.intersects (S : ℚ → ℚ) (c : Circle) : Shape → List Vector2D
  | .point p => c.intersectsPoint p
  | .line l => Circle.intersectsLine S c l
  | .rect r => Circle.intersectsRectangle S c r
  | .triangle t => Triangle.intersectsCircle S t c
  | .circle shape => Circle.intersectsCircle S c shape
  | .ray r => Ray.intersectsCircle S r c

/-- Ray.intersects: dispatch on the dynamic variant. -/
def Ray.intersects (S : ℚ → ℚ) (r : Ray) : Shape → List Vector2D
  | .point p => r.intersectsPoint p
  | .line l => r.intersectsLine l
  | .rect shape => r.intersectsRectangle shape
  | .triangle t => r.intersectsTriangle t
  | .circle c => Ray.intersectsCircle S r c
  | .ray shape => r.intersectsRay shape

/-- Triangle.intersects: dispatch on the dynamic variant. -/
def Triangle.intersects (S : ℚ → ℚ) (t : Triangle) : Shape → List Vector2D
  | .point p => t.intersectsPoint p
  | .line l => t.intersectsLine l
  | .rect r => t.intersectsRectangle r
  | .triangle shape => t.intersectsTriangle shape
  | .circle c => Triangle.intersectsCircle S t c
  | .ray r => t.intersectsRay r

/-- Shape.intersects: double dispatch on the receiver's variant. -/
def Shape.intersects (S : ℚ → ℚ) : Shape → Shape → List Vector2D
  | .point a, b => a.intersects b
  | .line a, b => Line.intersects S a b
  | .rect a, b => Rectangle.intersects S a b
  | .circle a, b => Circle.intersects S a b
  | .ray a, b => Ray.intersects S a b
  | .triangle a, b => Triangle.intersects S a b

/-- A record stored in the quadtree (`class QuadTreeNode`): it wraps
exactly one Shape. -/
structure QuadTreeNode where
  shape : Shape
deriving DecidableEq, Repr

/-- The four precomputed child-quadrant boundaries
(`interface QuadTreeChildrenBoundaries`). -/
structure QuadTreeChildrenBoundaries where
  northeast : Rectangle
  northwest : Rectangle
  southwest : Rectangle
  southeast : Rectangle
deriving DecidableEq, Repr

/-- A QuadTree (`class QuadTree`).  The source's `#children` field has
type `undefined | QuadTreeChildren` where `QuadTreeChildren` always
carries all four subtrees; the constructors `leaf` (children undefined)
and `node` (all four children present) mirror that type exactly, so
"children are either absent or all four present" holds by
construction. -/
inductive QuadTree where
  | leaf (boundary : Rectangle) (depthLayer : ℕ)
      (childrenBoundaries : QuadTreeChildrenBoundaries) (nodes : List QuadTreeNode)
  | node (boundary : Rectangle) (depthLayer : ℕ)
      (childrenBoundaries : QuadTreeChildrenBoundaries) (nodes : List QuadTreeNode)
      (northeast northwest southwest southeast : QuadTree)
deriving DecidableEq, Repr

/-- QuadTree.MAX_DEPTH = 8. -/
def QuadTree.MAX_DEPTH : ℕ := 8

/-- QuadTree.#calulateChildBoundaries: bisect the boundary into the four
quadrants. -/
def QuadTree.calculateChildBoundaries (x y width height : ℚ) : QuadTreeChildrenBoundaries :=
  let halfWidth := width / 2
  let halfHeight := height / 2
  { northeast := ⟨⟨x + halfWidth, y⟩, ⟨halfWidth, halfHeight⟩⟩
    northwest := ⟨⟨x, y⟩, ⟨halfWidth, halfHeight⟩⟩
    southwest := ⟨⟨x, y + halfHeight⟩, ⟨halfWidth, halfHeight⟩⟩
    southeast := ⟨⟨x + halfWidth, y + halfHeight⟩, ⟨halfWidth, halfHeight⟩⟩ }

/-- The childrenBoundaries a constructor call computes for a boundary. -/
def QuadTree.boundariesOf (b : Rectangle) : QuadTreeChildrenBoundaries :=
  calculateChildBoundaries b.position.x b.position.y b.dimensions.x b.dimensions.y

/-- The QuadTree constructor: no children, no stored records, child
boundaries precomputed from the boundary. -/
def QuadTree.new (boundary : Rectangle) (depthLayer : ℕ) : QuadTree :=
  .leaf boundary depthLayer (boundariesOf boundary) []

/-- The node's boundary (`#boundary`). -/
def QuadTree.boundary : QuadTree → Rectangle
  | .leaf b _ _ _ => b
  | .node b _ _ _ _ _ _ _ => b

/-- The node's depth layer (`#depthLayer`). -/
def QuadTree.depthLayer : QuadTree → ℕ
  | .leaf _ d _ _ => d
  | .node _ d _ _ _ _ _ _ => d

/-- The node's stored records (`#nodes`). -/
def QuadTree.nodes : QuadTree → List QuadTreeNode
  | .leaf _ _ _ ns => ns
  | .node _ _ _ ns _ _ _ _ => ns

/-- The node's precomputed child boundaries (`#childrenBoundaries`). -/
def QuadTree.childrenBoundaries : QuadTree → QuadTreeChildrenBoundaries
  | .leaf _ _ cb _ => cb
  | .node _ _ cb _ _ _ _ _ => cb

/-- QuadTree.subdivide: a no-op when children already exist or when
`depthLayer + 1 >= MAX_DEPTH`; otherwise creates all four children at
`depthLayer + 1` from the precomputed child boundaries. -/
def QuadTree.subdivide : QuadTree → QuadTree
  | .node b d cb ns ne nw sw se => .node b d cb ns ne nw sw se
  | .leaf b d cb ns =>
    if d + 1 ≥ MAX_DEPTH then .leaf b d cb ns
    else
      .node b d cb ns (new cb.northeast (d + 1)) (new cb.northwest (d + 1))
        (new cb.southwest (d + 1)) (new cb.southeast (d + 1))

/-- Insertion into a freshly constructed subtree `QuadTree.new b d`
(the recursive `this.#children.q.insert(node)` call that follows a
successful subdivision always targets such a tree).  The control flow is
that of `QuadTree.insert`: when `d + 1 >= MAX_DEPTH` subdivision is
refused, each quadrant block falls through, and the node's own boundary
decides between rejection and storing locally. -/
def QuadTree.insertFresh (b : Rectangle) (d : ℕ) (r : QuadTreeNode) : Bool × QuadTree :=
  let cb := boundariesOf b
  if d + 1 < MAX_DEPTH then
    if cb.northeast.contains r.shape then
      let res := insertFresh cb.northeast (d + 1) r
      (res.1, .node b d cb [] res.2 (new cb.northwest (d + 1))
        (new cb.southwest (d + 1)) (new cb.southeast (d + 1)))
    else if cb.northwest.contains r.shape then
      let res := insertFresh cb.northwest (d + 1) r
      (res.1, .node b d cb [] (new cb.northeast (d + 1)) res.2
        (new cb.southwest (d + 1)) (new cb.southeast (d + 1)))
    else if cb.southwest.contains r.shape then
      let res := insertFresh cb.southwest (d + 1) r
      (res.1, .node b d cb [] (new cb.northeast (d + 1)) (new cb.northwest (d + 1))
        res.2 (new cb.southeast (d + 1)))
    else if cb.southeast.contains r.shape then
      let res := insertFresh cb.southeast (d + 1) r
      (res.1, .node b d cb [] (new cb.northeast (d + 1)) (new cb.northwest (d + 1))
        (new cb.southwest (d + 1)) res.2)
    else if !(b.contains r.shape) then (false, .leaf b d cb [])
    else (true, .leaf b d cb [r])
  else if !(b.contains r.shape) then (false, .leaf b d cb [])
  else (true, .leaf b d cb [r])
termination_by MAX_DEPTH - d
decreasing_by all_goals omega

/-- QuadTree.insert.  Each of the four quadrant checks recurses into the
corresponding child when that quadrant's precomputed boundary fully
contains the shape — subdividing first (all four fresh children at
`depthLayer + 1`) when no children exist yet.  When `depthLayer + 1 >=
MAX_DEPTH`, `subdivide` is a no-op and every quadrant block falls
through (the source's `if (this.#children !== undefined)` guards), so
control reaches the final own-boundary check: reject with `false` when
the node's boundary does not contain the shape, else push the record
locally and return `true`. -/
def QuadTree.insert : QuadTree → QuadTreeNode → Bool × QuadTree
  | .node b d cb ns ne nw sw se, r =>
    if cb.northeast.contains r.shape then
      let res := insert ne r
      (res.1, .node b d cb ns res.2 nw sw se)
    else if cb.northwest.contains r.shape then
      let res := insert nw r
      (res.1, .node b d cb ns ne res.2 sw se)
    else if cb.southwest.contains r.shape then
      let res := insert sw r
      (res.1, .node b d cb ns ne nw res.2 se)
    else if cb.southeast.contains r.shape then
      let res := insert se r
      (res.1, .node b d cb ns ne nw sw res.2)
    else if !(b.contains r.shape) then (false, .node b d cb ns ne nw sw se)
    else (true, .node b d cb (ns ++ [r]) ne nw sw se)
  | .leaf b d cb ns, r =>
    if d + 1 < MAX_DEPTH then
      if cb.northeast.contains r.shape then
        let res := insertFresh cb.northeast (d + 1) r
        (res.1, .node b d cb ns res.2 (new cb.northwest (d + 1))
          (new cb.southwest (d + 1)) (new cb.southeast (d + 1)))
      else if cb.northwest.contains r.shape then
        let res := insertFresh cb.northwest (d + 1) r
        (res.1, .node b d cb ns (new cb.northeast (d + 1)) res.2
          (new cb.southwest (d + 1)) (new cb.southeast (d + 1)))
      else if cb.southwest.contains r.shape then
        let res := insertFresh cb.southwest (d + 1) r
        (res.1, .node b d cb ns (new cb.northeast (d + 1)) (new cb.northwest (d + 1))
          res.2 (new cb.southeast (d + 1)))
      else if cb.southeast.contains r.shape then
        let res := insertFresh cb.southeast (d + 1) r
        (res.1, .node b d cb ns (new cb.northeast (d + 1)) (new cb.northwest (d + 1))
          (new cb.southwest (d + 1)) res.2)
      else if !(b.contains r.shape) then (false, .leaf b d cb ns)
      else (true, .leaf b d cb (ns ++ [r]))
    else if !(b.contains r.shape) then (false, .leaf b d cb ns)
    else (true, .leaf b d cb (ns ++ [r]))

/-- JavaScript truthiness of an Array value: every object — in
particular every `Array`, even an empty one — coerces to `true` in a
boolean context.  `QuadTree.query` uses the Array results of
`Rectangle.intersects` and `Shape.intersects` directly as `if`
conditions, so those conditions see only this coercion. -/
def jsTruthy (_ : List Vector2D) : Bool :=
  true

/-- QuadTree.getAllNodes: push this node's records onto the accumulator,
then recurse northeast, northwest, southwest, southeast. -/
def QuadTree.getAllNodes : QuadTree → List QuadTreeNode → List QuadTreeNode
  | .leaf _ _ _ ns, acc => acc ++ ns
  | .node _ _ _ ns ne nw sw se, acc =>
    getAllNodes se (getAllNodes sw (getAllNodes nw (getAllNodes ne (acc ++ ns))))

/-- QuadTree.query: early-return when `!this.#boundary.intersects(range)`
(an Array coerced to a boolean), push every locally stored record whose
`range.intersects(shape)` result (again an Array coerced to a boolean)
is truthy, then for each child either collect its whole subtree when
`range.contains(child.#boundary)` or recurse. -/
def QuadTree.query (S : ℚ → ℚ) : QuadTree → Shape → List QuadTreeNode → List QuadTreeNode
  | .leaf b _ _ ns, range, found =>
    if !(jsTruthy (Rectangle.intersects S b range)) then found
    else found ++ ns.filter (fun n => jsTruthy (Shape.intersects S range n.shape))
  | .node b _ _ ns ne nw sw se, range, found =>
    if !(jsTruthy (Rectangle.intersects S b range)) then found
    else
      let f0 := found ++ ns.filter (fun n => jsTruthy (Shape.intersects S range n.shape))
      let f1 := if Shape.contains S range (.rect ne.boundary) then ne.getAllNodes f0
        else query S ne range f0
      let f2 := if Shape.contains S range (.rect nw.boundary) then nw.getAllNodes f1
        else query S nw range f1
      let f3 := if Shape.contains S range (.rect sw.boundary) then sw.getAllNodes f2
        else query S sw range f2
      if Shape.contains S range (.rect se.boundary) then se.getAllNodes f3
      else query S se range f3

/-- The spec's reading of `query` without the boundary early-return:
identical to `QuadTree.query` except that the leading
`if (!this.#boundary.intersects(range)) return found` branch is removed.
Defined for comparison with `QuadTree.query`. -/
def QuadTree.queryNoGuard (S : ℚ → ℚ) : QuadTree → Shape → List QuadTreeNode → List QuadTreeNode
  | .leaf _ _ _ ns, range, found =>
    found ++ ns.filter (fun n => jsTruthy (Shape.intersects S range n.shape))
  | .node _ _ _ ns ne nw sw se, range, found =>
    let f0 := found ++ ns.filter (fun n => jsTruthy (Shape.intersects S range n.shape))
    let f1 := if Shape.contains S range (.rect ne.boundary) then ne.getAllNodes f0
      else queryNoGuard S ne range f0
    let f2 := if Shape.contains S range (.rect nw.boundary) then nw.getAllNodes f1
      else queryNoGuard S nw range f1
    let f3 := if Shape.contains S range (.rect sw.boundary) then sw.getAllNodes f2
      else queryNoGuard S sw range f2
    if Shape.contains S range (.rect se.boundary) then se.getAllNodes f3
    else queryNoGuard S se range f3

/-- QuadTree.size: recursive count of stored records. -/
def QuadTree.size : QuadTree → ℕ
  | .leaf _ _ _ ns => ns.length
  | .node _ _ _ ns ne nw sw se => ns.length + (ne.size + nw.size + sw.size + se.size)

/-- QuadTree.clear: empty the record list, recursively clear and then
drop the children.  As a value, the result is always a childless node
with the same boundary, depth and precomputed child boundaries. -/
def QuadTree.clear : QuadTree → QuadTree
  | .leaf b d cb _ => .leaf b d cb []
  | .node b d cb _ _ _ _ _ => .leaf b d cb []

/-- QuadTree.resize: `clear()` (which always leaves a childless,
record-free node), then replace the boundary and recompute the child
boundaries. -/
def QuadTree.resize (t : QuadTree) (b : Rectangle) : QuadTree :=
  let cleared := t.clear
  .leaf b cleared.depthLayer (boundariesOf b) cleared.nodes

/-- Sequential insertion of a list of records, returning the list of
`insert` results in order together with the final tree. -/
def QuadTree.insertAll : QuadTree → List QuadTreeNode → List Bool × QuadTree
  | t, [] => ([], t)
  | t, r :: rs =>
    let res := t.insert r
    let rest := insertAll res.2 rs
    (res.1 :: rest.1, rest.2)

/-- The depth-layer invariant of the specification, as a decidable
check: every node's `depthLayer` is strictly below `MAX_DEPTH`, and each
child's `depthLayer` is its parent's plus one.  (That children are
either absent or all four present is enforced by the `QuadTree` type
itself, mirroring the source's `undefined | QuadTreeChildren` field.) -/
def QuadTree.depthInv : QuadTree → Bool
  | .leaf _ d _ _ => decide (d < MAX_DEPTH)
  | .node _ d _ _ ne nw sw se =>
    decide (d < MAX_DEPTH) &&
    decide (ne.depthLayer = d + 1) && decide (nw.depthLayer = d + 1) &&
    decide (sw.depthLayer = d + 1) && decide (se.depthLayer = d + 1) &&
    ne.depthInv && nw.depthInv && sw.depthInv && se.depthInv

/-- Structural coherence of the cached geometry: every node's
`childrenBoundaries` are the four quadrants of its own boundary, and
each existing child's boundary is the corresponding precomputed
quadrant.  Constructor-built trees have this property and every
operation preserves it. -/
def QuadTree.coherent : QuadTree → Bool
  | .leaf b _ cb _ => decide (cb = boundariesOf b)
  | .node b _ cb _ ne nw sw se =>
    decide (cb = boundariesOf b) &&
    decide (ne.boundary = cb.northeast) && decide (nw.boundary = cb.northwest) &&
    decide (sw.boundary = cb.southwest) && decide (se.boundary = cb.southeast) &&
    ne.coherent && nw.coherent && sw.coherent && se.coherent

/-- The states of a QuadTree reachable through its public interface:
construction at the default depth 0 followed by any sequence of
`insert`, `subdivide`, `clear` and `resize`.  (`query`, `getAllNodes`
and `size` do not change the tree in the value model.) -/
inductive QuadTree.Reachable : QuadTree → Prop where
  | con (b : Rectangle) : Reachable (QuadTree.new b 0)
  | ins (r : QuadTreeNode) {t : QuadTree} : Reachable t → Reachable (t.insert r).2
  | sub {t : QuadTree} : Reachable t → Reachable t.subdivide
  | clr {t : QuadTree} : Reachable t → Reachable t.clear
  | rsz (b : Rectangle) {t : QuadTree} : Reachable t → Reachable (t.resize b)

/-- Real-valued model of `Vector2D` for the trigonometric conversions
`polar` and `cartesian`: `Math.sqrt`, `Math.atan2`, `Math.cos` and
`Math.sin` have no rational model, so this part of the kernel is
embedded over `ℝ` with the exact real functions. -/
structure RVector2D where
  x : ℝ
  y : ℝ

/-- The epsilon tolerance, as a real number. -/
noncomputable def RVector2D.epsilon : ℝ := 1 / 1000

/-- Vector2D.magnitude over `ℝ`: `Math.sqrt(x*x + y*y)`. -/
noncomputable def RVector2D.magnitude (v : RVector2D) : ℝ :=
  Real.sqrt (v.x * v.x + v.y * v.y)

/-- Math.atan2(y, x): the argument of the complex number `x + y*i`
(Mathlib's `Complex.arg` is defined by the same quadrant case split as
`atan2`). -/
noncomputable def atan2 (y x : ℝ) : ℝ :=
  Complex.arg ⟨x, y⟩

/-- Vector2D.polar over `ℝ`: `(magnitude, Math.atan2(y, x))`. -/
noncomputable def RVector2D.polar (v : RVector2D) : RVector2D :=
  ⟨v.magnitude, atan2 v.y v.x⟩

/-- Vector2D.cartesian over `ℝ`: `(Math.cos(y)*x, Math.sin(y)*x)`. -/
noncomputable def RVector2D.cartesian (v : RVector2D) : RVector2D :=
  ⟨Real.cos v.y * v.x, Real.sin v.y * v.x⟩

/-- Vector2D.subtractBy over `ℝ`. -/
noncomputable def RVector2D.subtractBy (a v : RVector2D) : RVector2D :=
  ⟨a.x - v.x, a.y - v.y⟩

/-- Vector2D.magnitudeSquared over `ℝ`. -/
noncomputable def RVector2D.magnitudeSquared (v : RVector2D) : ℝ :=
  v.x * v.x + v.y * v.y

lemma List.filter_triv (ns : List QuadTreeNode) :
    ns.filter (fun _ => true) = ns := by
  induction ns with
  | nil => rfl
  | cons n ns ih => simp [List.filter, ih]

lemma QuadTree.getAllNodes_acc (t : QuadTree) :
    ∀ acc, t.getAllNodes acc = acc ++ t.getAllNodes [] := by
  induction t with
  | leaf b d cb ns =>
    intro acc
    simp [getAllNodes]
  | node b d cb ns ne nw sw se ihne ihnw ihsw ihse =>
    have key : ∀ a, se.getAllNodes (sw.getAllNodes (nw.getAllNodes (ne.getAllNodes a))) =
        a ++ (ne.getAllNodes [] ++ (nw.getAllNodes [] ++
          (sw.getAllNodes [] ++ se.getAllNodes []))) := by
      intro a
      rw [ihne a, ihnw, ihsw, ihse]
      simp
    intro acc
    show se.getAllNodes (sw.getAllNodes (nw.getAllNodes (ne.getAllNodes (acc ++ ns)))) =
      acc ++ se.getAllNodes (sw.getAllNodes (nw.getAllNodes (ne.getAllNodes ([] ++ ns))))
    rw [key, key]
    simp

lemma QuadTree.query_eq_getAllNodes (S : ℚ → ℚ) (t : QuadTree) :
    ∀ range found, t.query S range found = t.getAllNodes found := by
  induction t with
  | leaf b d cb ns =>
    intro range found
    simp [query, getAllNodes, jsTruthy, List.filter_triv]
  | node b d cb ns ne nw sw se ihne ihnw ihsw ihse =>
    intro range found
    simp only [query, getAllNodes, jsTruthy, Bool.not_true, Bool.false_eq_true,
      if_false, List.filter_triv, ihne, ihnw, ihsw, ihse, ite_self]


lemma QuadTree.getAllNodes_node (b : Rectangle) (d : ℕ) (cb : QuadTreeChildrenBoundaries)
    (ns : List QuadTreeNode) (ne nw sw se : QuadTree) (acc : List QuadTreeNode) :
    (QuadTree.node b d cb ns ne nw sw se).getAllNodes acc =
      acc ++ ns ++ ne.getAllNodes [] ++ nw.getAllNodes [] ++
        sw.getAllNodes [] ++ se.getAllNodes [] := by
  show se.getAllNodes (sw.getAllNodes (nw.getAllNodes (ne.getAllNodes (acc ++ ns)))) = _
  rw [getAllNodes_acc se, getAllNodes_acc sw, getAllNodes_acc nw, getAllNodes_acc ne]

lemma QuadTree.new_getAllNodes (b : Rectangle) (d : ℕ) (acc : List QuadTreeNode) :
    (QuadTree.new b d).getAllNodes acc = acc := by
  simp [new, getAllNodes]

lemma QuadTree.new_depthLayer (b : Rectangle) (d : ℕ) : (QuadTree.new b d).depthLayer = d :=
  rfl

lemma QuadTree.new_depthInv (b : Rectangle) (d : ℕ) (h : d < MAX_DEPTH) :
    (QuadTree.new b d).depthInv = true := by
  simp [new, depthInv, h]

lemma QuadTree.insertFresh_props (b : Rectangle) (d : ℕ) (r : QuadTreeNode) :
    ((insertFresh b d r).1 = true → r ∈ (insertFresh b d r).2.getAllNodes []) ∧
    (b.contains r.shape = true → (insertFresh b d r).1 = true) ∧
    (insertFresh b d r).2.depthLayer = d ∧
    (d < MAX_DEPTH → (insertFresh b d r).2.depthInv = true) := by
  induction b, d, r using QuadTree.insertFresh.induct with
  | case1 b d r cb hlt hne ih =>
    obtain ⟨ih1, ih2, ih3, ih4⟩ := ih
    have hne' : (QuadTree.boundariesOf b).northeast.contains r.shape = true := hne
    rw [QuadTree.insertFresh]
    simp only [hne', hlt, if_true, if_pos]
    refine ⟨?_, ?_, rfl, ?_⟩
    · intro h
      rw [QuadTree.getAllNodes_node]
      simp only [QuadTree.new_getAllNodes, List.nil_append, List.append_nil]
      have := ih1 h
      simp [this]
    · intro _
      exact ih2 hne
    · intro _
      simp [QuadTree.depthInv, QuadTree.new_depthLayer, ih3,
        QuadTree.new_depthInv _ _ hlt, ih4 hlt]
      omega
  | case2 b d r cb hlt hne hnw ih =>
    obtain ⟨ih1, ih2, ih3, ih4⟩ := ih
    have hne' : (QuadTree.boundariesOf b).northeast.contains r.shape = false := by
      simpa using hne
    have hnw' : (QuadTree.boundariesOf b).northwest.contains r.shape = true := hnw
    rw [QuadTree.insertFresh]
    simp only [hne', hnw', hlt, if_true, if_pos, Bool.false_eq_true, if_false]
    refine ⟨?_, ?_, rfl, ?_⟩
    · intro h
      rw [QuadTree.getAllNodes_node]
      simp only [QuadTree.new_getAllNodes, List.nil_append, List.append_nil]
      have := ih1 h
      simp [this]
    · intro _
      exact ih2 hnw
    · intro _
      simp [QuadTree.depthInv, QuadTree.new_depthLayer, ih3,
        QuadTree.new_depthInv _ _ hlt, ih4 hlt]
      omega
  | case3 b d r cb hlt hne hnw hsw ih =>
    obtain ⟨ih1, ih2, ih3, ih4⟩ := ih
    have hne' : (QuadTree.boundariesOf b).northeast.contains r.shape = false := by
      simpa using hne
    have hnw' : (QuadTree.boundariesOf b).northwest.contains r.shape = false := by
      simpa using hnw
    have hsw' : (QuadTree.boundariesOf b).southwest.contains r.shape = true := hsw
    rw [QuadTree.insertFresh]
    simp only [hne', hnw', hsw', hlt, if_true, if_pos, Bool.false_eq_true, if_false]
    refine ⟨?_, ?_, rfl, ?_⟩
    · intro h
      rw [QuadTree.getAllNodes_node]
      simp only [QuadTree.new_getAllNodes, List.nil_append, List.append_nil]
      have := ih1 h
      simp [this]
    · intro _
      exact ih2 hsw
    · intro _
      simp [QuadTree.depthInv, QuadTree.new_depthLayer, ih3,
        QuadTree.new_depthInv _ _ hlt, ih4 hlt]
      omega
  | case4 b d r cb hlt hne hnw hsw hse ih =>
    obtain ⟨ih1, ih2, ih3, ih4⟩ := ih
    have hne' : (QuadTree.boundariesOf b).northeast.contains r.shape = false := by
      simpa using hne
    have hnw' : (QuadTree.boundariesOf b).northwest.contains r.shape = false := by
      simpa using hnw
    have hsw' : (QuadTree.boundariesOf b).southwest.contains r.shape = false := by
      simpa using hsw
    have hse' : (QuadTree.boundariesOf b).southeast.contains r.shape = true := hse
    rw [QuadTree.insertFresh]
    simp only [hne', hnw', hsw', hse', hlt, if_true, if_pos, Bool.false_eq_true, if_false]
    refine ⟨?_, ?_, rfl, ?_⟩
    · intro h
      rw [QuadTree.getAllNodes_node]
      simp only [QuadTree.new_getAllNodes, List.nil_append, List.append_nil]
      have := ih1 h
      simp [this]
    · intro _
      exact ih2 hse
    · intro _
      simp [QuadTree.depthInv, QuadTree.new_depthLayer, ih3,
        QuadTree.new_depthInv _ _ hlt, ih4 hlt]
      omega
  | case5 b d r cb hlt hne hnw hsw hse hb =>
    have hne' : (QuadTree.boundariesOf b).northeast.contains r.shape = false := by
      simpa using hne
    have hnw' : (QuadTree.boundariesOf b).northwest.contains r.shape = false := by
      simpa using hnw
    have hsw' : (QuadTree.boundariesOf b).southwest.contains r.shape = false := by
      simpa using hsw
    have hse' : (QuadTree.boundariesOf b).southeast.contains r.shape = false := by
      simpa using hse
    have hb' : b.contains r.shape = false := by
      simpa using hb
    rw [QuadTree.insertFresh]
    simp only [hne', hnw', hsw', hse', hb', hlt, if_true, if_pos,
      Bool.false_eq_true, if_false, Bool.not_false]
    refine ⟨?_, ?_, rfl, ?_⟩
    · intro h
      simp at h
    · intro hcontra
      exact hcontra.elim
    · intro hd
      simp [QuadTree.depthInv, hd]
  | case6 b d r cb hlt hne hnw hsw hse hb =>
    have hne' : (QuadTree.boundariesOf b).northeast.contains r.shape = false := by
      simpa using hne
    have hnw' : (QuadTree.boundariesOf b).northwest.contains r.shape = false := by
      simpa using hnw
    have hsw' : (QuadTree.boundariesOf b).southwest.contains r.shape = false := by
      simpa using hsw
    have hse' : (QuadTree.boundariesOf b).southeast.contains r.shape = false := by
      simpa using hse
    have hb' : b.contains r.shape = true := by
      simpa using hb
    rw [QuadTree.insertFresh]
    simp only [hne', hnw', hsw', hse', hb', hlt, if_true, if_pos,
      Bool.false_eq_true, if_false, Bool.not_true]
    refine ⟨?_, fun _ => trivial, rfl, ?_⟩
    · intro _
      simp [QuadTree.getAllNodes]
    · intro hd
      simp [QuadTree.depthInv, hd]
  | case7 b d r hlt hb =>
    have hb' : b.contains r.shape = false := by
      simpa using hb
    have hlt' : ¬ d + 1 < QuadTree.MAX_DEPTH := hlt
    rw [QuadTree.insertFresh]
    simp only [hb', hlt', if_true, if_pos, Bool.false_eq_true, if_false, Bool.not_false]
    refine ⟨?_, ?_, rfl, ?_⟩
    · intro h
      simp at h
    · intro hcontra
      exact hcontra.elim
    · intro hd
      simp [QuadTree.depthInv, hd]
  | case8 b d r hlt hb =>
    have hb' : b.contains r.shape = true := by
      simpa using hb
    have hlt' : ¬ d + 1 < QuadTree.MAX_DEPTH := hlt
    rw [QuadTree.insertFresh]
    simp only [hb', hlt', if_true, if_pos, Bool.false_eq_true, if_false, Bool.not_true]
    refine ⟨?_, fun _ => trivial, rfl, ?_⟩
    · intro _
      simp [QuadTree.getAllNodes]
    · intro hd
      simp [QuadTree.depthInv, hd]

lemma QuadTree.mem_getAllNodes_node (x : QuadTreeNode) (b : Rectangle) (d : ℕ)
    (cb : QuadTreeChildrenBoundaries) (ns : List QuadTreeNode) (ne nw sw se : QuadTree) :
    x ∈ (QuadTree.node b d cb ns ne nw sw se).getAllNodes [] ↔
      x ∈ ns ∨ x ∈ ne.getAllNodes [] ∨ x ∈ nw.getAllNodes [] ∨
        x ∈ sw.getAllNodes [] ∨ x ∈ se.getAllNodes [] := by
  rw [getAllNodes_node]
  simp [or_assoc]

lemma QuadTree.depthInv_node_iff (b : Rectangle) (d : ℕ)
    (cb : QuadTreeChildrenBoundaries) (ns : List QuadTreeNode) (ne nw sw se : QuadTree) :
    (QuadTree.node b d cb ns ne nw sw se).depthInv = true ↔
      d < MAX_DEPTH ∧ ne.depthLayer = d + 1 ∧ nw.depthLayer = d + 1 ∧
        sw.depthLayer = d + 1 ∧ se.depthLayer = d + 1 ∧ ne.depthInv = true ∧
        nw.depthInv = true ∧ sw.depthInv = true ∧ se.depthInv = true := by
  simp [depthInv, and_assoc]

lemma QuadTree.insert_props (t : QuadTree) (r : QuadTreeNode) :
    (∀ x, x ∈ t.getAllNodes [] → x ∈ (t.insert r).2.getAllNodes []) ∧
    ((t.insert r).1 = true → r ∈ (t.insert r).2.getAllNodes []) ∧
    (t.insert r).2.depthLayer = t.depthLayer ∧
    (t.insert r).2.boundary = t.boundary ∧
    (t.depthInv = true → (t.insert r).2.depthInv = true) := by
  induction t with
  | node b d cb ns ne nw sw se ihne ihnw ihsw ihse =>
    obtain ⟨pne1, pne2, pne3, pne4, pne5⟩ := ihne
    obtain ⟨pnw1, pnw2, pnw3, pnw4, pnw5⟩ := ihnw
    obtain ⟨psw1, psw2, psw3, psw4, psw5⟩ := ihsw
    obtain ⟨pse1, pse2, pse3, pse4, pse5⟩ := ihse
    simp only [QuadTree.insert]
    split_ifs with h1 h2 h3 h4 h5
    · refine ⟨?_, ?_, rfl, rfl, ?_⟩
      · intro x hx
        rw [mem_getAllNodes_node] at hx ⊢
        rcases hx with hx | hx | hx | hx | hx
        · exact Or.inl (hx)
        · exact Or.inr (Or.inl (pne1 x hx))
        · exact Or.inr (Or.inr (Or.inl (hx)))
        · exact Or.inr (Or.inr (Or.inr (Or.inl (hx))))
        · exact Or.inr (Or.inr (Or.inr (Or.inr (hx))))
      · intro h
        rw [mem_getAllNodes_node]
        exact Or.inr (Or.inl (pne2 h))
      · intro hinv
        rw [depthInv_node_iff] at hinv ⊢
        obtain ⟨a1, a2, a3, a4, a5, a6, a7, a8, a9⟩ := hinv
        exact ⟨a1, by rw [pne3]; exact a2, a3, a4, a5, pne5 a6, a7, a8, a9⟩
    · refine ⟨?_, ?_, rfl, rfl, ?_⟩
      · intro x hx
        rw [mem_getAllNodes_node] at hx ⊢
        rcases hx with hx | hx | hx | hx | hx
        · exact Or.inl (hx)
        · exact Or.inr (Or.inl (hx))
        · exact Or.inr (Or.inr (Or.inl (pnw1 x hx)))
        · exact Or.inr (Or.inr (Or.inr (Or.inl (hx))))
        · exact Or.inr (Or.inr (Or.inr (Or.inr (hx))))
      · intro h
        rw [mem_getAllNodes_node]
        exact Or.inr (Or.inr (Or.inl (pnw2 h)))
      · intro hinv
        rw [depthInv_node_iff] at hinv ⊢
        obtain ⟨a1, a2, a3, a4, a5, a6, a7, a8, a9⟩ := hinv
        exact ⟨a1, a2, by rw [pnw3]; exact a3, a4, a5, a6, pnw5 a7, a8, a9⟩
    · refine ⟨?_, ?_, rfl, rfl, ?_⟩
      · intro x hx
        rw [mem_getAllNodes_node] at hx ⊢
        rcases hx with hx | hx | hx | hx | hx
        · exact Or.inl (hx)
        · exact Or.inr (Or.inl (hx))
        · exact Or.inr (Or.inr (Or.inl (hx)))
        · exact Or.inr (Or.inr (Or.inr (Or.inl (psw1 x hx))))
        · exact Or.inr (Or.inr (Or.inr (Or.inr (hx))))
      · intro h
        rw [mem_getAllNodes_node]
        exact Or.inr (Or.inr (Or.inr (Or.inl (psw2 h))))
      · intro hinv
        rw [depthInv_node_iff] at hinv ⊢
        obtain ⟨a1, a2, a3, a4, a5, a6, a7, a8, a9⟩ := hinv
        exact ⟨a1, a2, a3, by rw [psw3]; exact a4, a5, a6, a7, psw5 a8, a9⟩
    · refine ⟨?_, ?_, rfl, rfl, ?_⟩
      · intro x hx
        rw [mem_getAllNodes_node] at hx ⊢
        rcases hx with hx | hx | hx | hx | hx
        · exact Or.inl (hx)
        · exact Or.inr (Or.inl (hx))
        · exact Or.inr (Or.inr (Or.inl (hx)))
        · exact Or.inr (Or.inr (Or.inr (Or.inl (hx))))
        · exact Or.inr (Or.inr (Or.inr (Or.inr (pse1 x hx))))
      · intro h
        rw [mem_getAllNodes_node]
        exact Or.inr (Or.inr (Or.inr (Or.inr (pse2 h))))
      · intro hinv
        rw [depthInv_node_iff] at hinv ⊢
        obtain ⟨a1, a2, a3, a4, a5, a6, a7, a8, a9⟩ := hinv
        exact ⟨a1, a2, a3, a4, by rw [pse3]; exact a5, a6, a7, a8, pse5 a9⟩
    · exact ⟨fun x hx => hx, fun h => by simp at h, rfl, rfl, fun h => h⟩
    · refine ⟨?_, ?_, rfl, rfl, ?_⟩
      · intro x hx
        rw [mem_getAllNodes_node] at hx ⊢
        rcases hx with hx | hx | hx | hx | hx
        · exact Or.inl (List.mem_append_left _ hx)
        · exact Or.inr (Or.inl hx)
        · exact Or.inr (Or.inr (Or.inl hx))
        · exact Or.inr (Or.inr (Or.inr (Or.inl hx)))
        · exact Or.inr (Or.inr (Or.inr (Or.inr hx)))
      · intro _
        rw [mem_getAllNodes_node]
        exact Or.inl (by simp)
      · intro hinv
        rw [depthInv_node_iff] at hinv ⊢
        exact hinv
  | leaf b d cb ns =>
    have pne := insertFresh_props cb.northeast (d + 1) r
    have pnw := insertFresh_props cb.northwest (d + 1) r
    have psw := insertFresh_props cb.southwest (d + 1) r
    have pse := insertFresh_props cb.southeast (d + 1) r
    simp only [QuadTree.insert]
    split_ifs with h0 h1 h2 h3 h4 h5 h6
    · refine ⟨?_, ?_, rfl, rfl, ?_⟩
      · intro x hx
        have hx' : x ∈ ns := by simpa [QuadTree.getAllNodes] using hx
        rw [mem_getAllNodes_node]
        exact Or.inl hx'
      · intro h
        rw [mem_getAllNodes_node]
        exact Or.inr (Or.inl (pne.1 h))
      · intro _
        rw [depthInv_node_iff]
        exact ⟨Nat.lt_of_succ_lt h0, pne.2.2.1, rfl, rfl, rfl, pne.2.2.2 h0, new_depthInv _ _ h0, new_depthInv _ _ h0, new_depthInv _ _ h0⟩
    · refine ⟨?_, ?_, rfl, rfl, ?_⟩
      · intro x hx
        have hx' : x ∈ ns := by simpa [QuadTree.getAllNodes] using hx
        rw [mem_getAllNodes_node]
        exact Or.inl hx'
      · intro h
        rw [mem_getAllNodes_node]
        exact Or.inr (Or.inr (Or.inl (pnw.1 h)))
      · intro _
        rw [depthInv_node_iff]
        exact ⟨Nat.lt_of_succ_lt h0, rfl, pnw.2.2.1, rfl, rfl, new_depthInv _ _ h0, pnw.2.2.2 h0, new_depthInv _ _ h0, new_depthInv _ _ h0⟩
    · refine ⟨?_, ?_, rfl, rfl, ?_⟩
      · intro x hx
        have hx' : x ∈ ns := by simpa [QuadTree.getAllNodes] using hx
        rw [mem_getAllNodes_node]
        exact Or.inl hx'
      · intro h
        rw [mem_getAllNodes_node]
        exact Or.inr (Or.inr (Or.inr (Or.inl (psw.1 h))))
      · intro _
        rw [depthInv_node_iff]
        exact ⟨Nat.lt_of_succ_lt h0, rfl, rfl, psw.2.2.1, rfl, new_depthInv _ _ h0, new_depthInv _ _ h0, psw.2.2.2 h0, new_depthInv _ _ h0⟩
    · refine ⟨?_, ?_, rfl, rfl, ?_⟩
      · intro x hx
        have hx' : x ∈ ns := by simpa [QuadTree.getAllNodes] using hx
        rw [mem_getAllNodes_node]
        exact Or.inl hx'
      · intro h
        rw [mem_getAllNodes_node]
        exact Or.inr (Or.inr (Or.inr (Or.inr (pse.1 h))))
      · intro _
        rw [depthInv_node_iff]
        exact ⟨Nat.lt_of_succ_lt h0, rfl, rfl, rfl, pse.2.2.1, new_depthInv _ _ h0, new_depthInv _ _ h0, new_depthInv _ _ h0, pse.2.2.2 h0⟩
    · exact ⟨fun x hx => hx, fun h => by simp at h, rfl, rfl, fun h => h⟩
    · refine ⟨?_, ?_, rfl, rfl, ?_⟩
      · intro x hx
        have hx' : x ∈ ns := by simpa [QuadTree.getAllNodes] using hx
        simp [QuadTree.getAllNodes]
        exact Or.inl hx'
      · intro _
        simp [QuadTree.getAllNodes]
      · intro hinv
        exact hinv
    · exact ⟨fun x hx => hx, fun h => by simp at h, rfl, rfl, fun h => h⟩
    · refine ⟨?_, ?_, rfl, rfl, ?_⟩
      · intro x hx
        have hx' : x ∈ ns := by simpa [QuadTree.getAllNodes] using hx
        simp [QuadTree.getAllNodes]
        exact Or.inl hx'
      · intro _
        simp [QuadTree.getAllNodes]
      · intro hinv
        exact hinv

lemma Rectangle.containsPoint_of_sub (sub b : Rectangle) (p : Vector2D)
    (hx1 : b.position.x ≤ sub.position.x)
    (hx2 : sub.position.x + sub.dimensions.x ≤ b.position.x + b.dimensions.x)
    (hy1 : b.position.y ≤ sub.position.y)
    (hy2 : sub.position.y + sub.dimensions.y ≤ b.position.y + b.dimensions.y)
    (h : sub.containsPoint p = true) : b.containsPoint p = true := by
  simp only [Rectangle.containsPoint, Bool.not_eq_true', Bool.or_eq_false_iff,
    decide_eq_false_iff_not, not_lt] at h ⊢
  obtain ⟨⟨⟨h1, h2⟩, h3⟩, h4⟩ := h
  exact ⟨⟨⟨by linarith, by linarith⟩, by linarith⟩, by linarith⟩

lemma Rectangle.contains_of_sub (sub b : Rectangle) (s : Shape)
    (hx1 : b.position.x ≤ sub.position.x)
    (hx2 : sub.position.x + sub.dimensions.x ≤ b.position.x + b.dimensions.x)
    (hy1 : b.position.y ≤ sub.position.y)
    (hy2 : sub.position.y + sub.dimensions.y ≤ b.position.y + b.dimensions.y)
    (h : sub.contains s = true) : b.contains s = true := by
  cases s with
  | point p =>
    exact containsPoint_of_sub sub b p.position hx1 hx2 hy1 hy2 h
  | line l =>
    simp only [Rectangle.contains, Rectangle.containsLine, Bool.and_eq_true] at h ⊢
    exact ⟨containsPoint_of_sub sub b l.start hx1 hx2 hy1 hy2 h.1,
      containsPoint_of_sub sub b l.endP hx1 hx2 hy1 hy2 h.2⟩
  | rect shape =>
    simp only [Rectangle.contains, Rectangle.containsRectangle, Bool.and_eq_true,
      decide_eq_true_eq] at h ⊢
    obtain ⟨⟨⟨h1, h2⟩, h3⟩, h4⟩ := h
    exact ⟨⟨⟨by linarith, by linarith⟩, by linarith⟩, by linarith⟩
  | circle c =>
    simp only [Rectangle.contains, Rectangle.containsCircle, Bool.and_eq_true,
      decide_eq_true_eq] at h ⊢
    obtain ⟨⟨⟨h1, h2⟩, h3⟩, h4⟩ := h
    exact ⟨⟨⟨by linarith, by linarith⟩, by linarith⟩, by linarith⟩
  | ray _ =>
    simp [Rectangle.contains] at h
  | triangle t =>
    simp only [Rectangle.contains, Rectangle.containsTriangle, Rectangle.containsLine,
      Bool.and_eq_true] at h ⊢
    obtain ⟨⟨⟨ha, hb'⟩, ⟨hc, hd⟩⟩, ⟨he, hf⟩⟩ := h
    exact ⟨⟨⟨containsPoint_of_sub sub b _ hx1 hx2 hy1 hy2 ha,
      containsPoint_of_sub sub b _ hx1 hx2 hy1 hy2 hb'⟩,
      ⟨containsPoint_of_sub sub b _ hx1 hx2 hy1 hy2 hc,
        containsPoint_of_sub sub b _ hx1 hx2 hy1 hy2 hd⟩⟩,
      ⟨containsPoint_of_sub sub b _ hx1 hx2 hy1 hy2 he,
        containsPoint_of_sub sub b _ hx1 hx2 hy1 hy2 hf⟩⟩

lemma QuadTree.quadrants_not_contains (b : Rectangle) (s : Shape)
    (hw : 0 ≤ b.dimensions.x) (hh : 0 ≤ b.dimensions.y)
    (h : b.contains s = false) :
    (boundariesOf b).northeast.contains s = false ∧
    (boundariesOf b).northwest.contains s = false ∧
    (boundariesOf b).southwest.contains s = false ∧
    (boundariesOf b).southeast.contains s = false := by
  refine ⟨?_, ?_, ?_, ?_⟩ <;>
  · cases hq : Rectangle.contains _ s
    · rfl
    · exfalso
      have := Rectangle.contains_of_sub _ b s (by
        simp only [boundariesOf, calculateChildBoundaries]
        linarith) (by
        simp only [boundariesOf, calculateChildBoundaries]
        linarith) (by
        simp only [boundariesOf, calculateChildBoundaries]
        linarith) (by
        simp only [boundariesOf, calculateChildBoundaries]
        linarith) hq
      rw [this] at h
      simp at h

lemma QuadTree.coherent_node_iff (b : Rectangle) (d : ℕ)
    (cb : QuadTreeChildrenBoundaries) (ns : List QuadTreeNode) (ne nw sw se : QuadTree) :
    (QuadTree.node b d cb ns ne nw sw se).coherent = true ↔
      cb = boundariesOf b ∧ ne.boundary = cb.northeast ∧ nw.boundary = cb.northwest ∧
        sw.boundary = cb.southwest ∧ se.boundary = cb.southeast ∧
        ne.coherent = true ∧ nw.coherent = true ∧ sw.coherent = true ∧
        se.coherent = true := by
  simp [coherent, and_assoc]

lemma QuadTree.insert_not_contained (t : QuadTree) (r : QuadTreeNode)
    (hcb : t.childrenBoundaries = boundariesOf t.boundary)
    (hw : 0 ≤ t.boundary.dimensions.x) (hh : 0 ≤ t.boundary.dimensions.y)
    (h : t.boundary.contains r.shape = false) :
    t.insert r = (false, t) := by
  cases t with
  | leaf b d cb ns =>
    obtain ⟨q1, q2, q3, q4⟩ := quadrants_not_contains b r.shape hw hh h
    have hcb' : cb = boundariesOf b := hcb
    simp only [QuadTree.insert, hcb', q1, q2, q3, q4, Bool.false_eq_true, if_false,
      QuadTree.boundary] at h ⊢
    rw [h]
    simp
  | node b d cb ns ne nw sw se =>
    obtain ⟨q1, q2, q3, q4⟩ := quadrants_not_contains b r.shape hw hh h
    have hcb' : cb = boundariesOf b := hcb
    simp only [QuadTree.insert, hcb', q1, q2, q3, q4, Bool.false_eq_true, if_false,
      QuadTree.boundary] at h ⊢
    rw [h]
    simp

lemma QuadTree.insert_true_of_contains (t : QuadTree) (r : QuadTreeNode)
    (hc : t.coherent = true) (h : t.boundary.contains r.shape = true) :
    (t.insert r).1 = true := by
  induction t with
  | leaf b d cb ns =>
    have hb : b.contains r.shape = true := h
    simp only [QuadTree.insert]
    split_ifs with h0 h1 h2 h3 h4 h5 h6
    · exact (insertFresh_props cb.northeast (d + 1) r).2.1 h1
    · exact (insertFresh_props cb.northwest (d + 1) r).2.1 h2
    · exact (insertFresh_props cb.southwest (d + 1) r).2.1 h3
    · exact (insertFresh_props cb.southeast (d + 1) r).2.1 h4
    · rw [hb] at h5
      simp at h5
    · rfl
    · rw [hb] at h6
      simp at h6
    · rfl
  | node b d cb ns ne nw sw se ihne ihnw ihsw ihse =>
    rw [coherent_node_iff] at hc
    obtain ⟨hcb, hbne, hbnw, hbsw, hbse, cne, cnw, csw, cse⟩ := hc
    have hb : b.contains r.shape = true := h
    simp only [QuadTree.insert]
    split_ifs with h1 h2 h3 h4 h5
    · exact ihne cne (by rw [hbne]; exact h1)
    · exact ihnw cnw (by rw [hbnw]; exact h2)
    · exact ihsw csw (by rw [hbsw]; exact h3)
    · exact ihse cse (by rw [hbse]; exact h4)
    · rw [hb] at h5
      simp at h5
    · rfl

lemma QuadTree.depthInv_depthLayer (t : QuadTree) (h : t.depthInv = true) :
    t.depthLayer < MAX_DEPTH := by
  cases t with
  | leaf b d cb ns =>
    simpa [depthInv, depthLayer] using h
  | node b d cb ns ne nw sw se =>
    rw [depthInv_node_iff] at h
    exact h.1

lemma QuadTree.subdivide_depthInv (t : QuadTree) (h : t.depthInv = true) :
    t.subdivide.depthInv = true := by
  cases t with
  | node b d cb ns ne nw sw se =>
    exact h
  | leaf b d cb ns =>
    have hd : d < MAX_DEPTH := by simpa [depthInv] using h
    simp only [subdivide]
    split_ifs with h0
    · exact h
    · rw [depthInv_node_iff]
      have hlt : d + 1 < MAX_DEPTH := by omega
      exact ⟨hd, rfl, rfl, rfl, rfl, new_depthInv _ _ hlt, new_depthInv _ _ hlt,
        new_depthInv _ _ hlt, new_depthInv _ _ hlt⟩

lemma QuadTree.clear_depthInv (t : QuadTree) (h : t.depthInv = true) :
    t.clear.depthInv = true := by
  have := depthInv_depthLayer t h
  cases t with
  | leaf b d cb ns =>
    simpa [clear, depthInv, depthLayer] using this
  | node b d cb ns ne nw sw se =>
    simpa [clear, depthInv, depthLayer] using this

lemma QuadTree.resize_depthInv (t : QuadTree) (b : Rectangle) (h : t.depthInv = true) :
    (t.resize b).depthInv = true := by
  have := depthInv_depthLayer t h
  cases t with
  | leaf b' d cb ns =>
    simpa [resize, clear, depthInv, depthLayer] using this
  | node b' d cb ns ne nw sw se =>
    simpa [resize, clear, depthInv, depthLayer] using this

lemma QuadTree.reachable_depthInv {t : QuadTree} (h : t.Reachable) :
    t.depthInv = true := by
  induction h with
  | con b =>
    exact new_depthInv b 0 (by norm_num [MAX_DEPTH])
  | ins r _ ih =>
    exact (insert_props _ r).2.2.2.2 ih
  | sub _ ih =>
    exact subdivide_depthInv _ ih
  | clr _ ih =>
    exact clear_depthInv _ ih
  | rsz b _ ih =>
    exact resize_depthInv _ b ih

lemma QuadTree.insertAll_mem_of_mem (rs : List QuadTreeNode) :
    ∀ (t : QuadTree) (x : QuadTreeNode), x ∈ t.getAllNodes [] →
      x ∈ (t.insertAll rs).2.getAllNodes [] := by
  induction rs with
  | nil =>
    intro t x hx
    exact hx
  | cons r rs ih =>
    intro t x hx
    exact ih (t.insert r).2 x ((insert_props t r).1 x hx)

lemma QuadTree.insertAll_mem (rs : List QuadTreeNode) :
    ∀ (t : QuadTree), (∀ ok ∈ (t.insertAll rs).1, ok = true) →
      ∀ r ∈ rs, r ∈ (t.insertAll rs).2.getAllNodes [] := by
  induction rs with
  | nil =>
    intro t _ r hr
    simp at hr
  | cons r' rs ih =>
    intro t hok r hr
    have hok' : (t.insert r').1 = true := by
      apply hok
      simp [insertAll]
    rcases List.mem_cons.mp hr with rfl | hr'
    · refine insertAll_mem_of_mem rs (t.insert r).2 r ?_
      exact (insert_props t r).2.1 hok'
    · refine ih (t.insert r').2 ?_ r hr'
      intro ok hmem
      apply hok
      simp [insertAll]
      exact Or.inr hmem

lemma QuadTree.insertAll_boundary (rs : List QuadTreeNode) :
    ∀ t : QuadTree, (t.insertAll rs).2.boundary = t.boundary := by
  induction rs with
  | nil =>
    intro t
    rfl
  | cons r rs ih =>
    intro t
    rw [show (t.insertAll (r :: rs)).2 = ((t.insert r).2.insertAll rs).2 from rfl,
      ih (t.insert r).2, (insert_props t r).2.2.2.1]

lemma QuadTree.queryNoGuard_eq_getAllNodes (S : ℚ → ℚ) (t : QuadTree) :
    ∀ range found, t.queryNoGuard S range found = t.getAllNodes found := by
  induction t with
  | leaf b d cb ns =>
    intro range found
    simp [queryNoGuard, getAllNodes, jsTruthy, List.filter_triv]
  | node b d cb ns ne nw sw se ihne ihnw ihsw ihse =>
    intro range found
    simp only [queryNoGuard, getAllNodes, jsTruthy, List.filter_triv, ihne, ihnw,
      ihsw, ihse, ite_self]

lemma QuadTree.coherent_childrenBoundaries (t : QuadTree) (hc : t.coherent = true) :
    t.childrenBoundaries = boundariesOf t.boundary := by
  cases t with
  | leaf b d cb ns =>
    simpa [coherent, childrenBoundaries, boundary] using hc
  | node b d cb ns ne nw sw se =>
    rw [coherent_node_iff] at hc
    exact hc.1

/-- Claim C1: for every QuadTree into which a set of records has been
inserted with every `insert` returning `true`, `query` with a range
equal to the tree's root boundary Rectangle returns every one of those
inserted records.  (Holds for every model `S` of `Math.sqrt`.) -/
theorem claim_C1_query_root_boundary_returns_inserted (S : ℚ → ℚ) (t : QuadTree)
    (rs : List QuadTreeNode) (h : ∀ ok ∈ (t.insertAll rs).1, ok = true) :
    ∀ r ∈ rs,
      r ∈ (t.insertAll rs).2.query S (.rect (t.insertAll rs).2.boundary) [] := by
  intro r hr
  rw [QuadTree.query_eq_getAllNodes]
  exact QuadTree.insertAll_mem rs t h r hr

/-- Witness for C1 at a concrete tree and record list. -/
theorem claim_C1_witness :
    (∀ ok ∈ ((QuadTree.new ⟨⟨0, 0⟩, ⟨10, 10⟩⟩ 0).insertAll
        [⟨.line ⟨⟨1, 1⟩, ⟨9, 9⟩⟩⟩]).1, ok = true) ∧
    ∀ r ∈ [(⟨.line ⟨⟨1, 1⟩, ⟨9, 9⟩⟩⟩ : QuadTreeNode)],
      r ∈ ((QuadTree.new ⟨⟨0, 0⟩, ⟨10, 10⟩⟩ 0).insertAll
        [⟨.line ⟨⟨1, 1⟩, ⟨9, 9⟩⟩⟩]).2.query (fun _ => 0)
        (.rect ((QuadTree.new ⟨⟨0, 0⟩, ⟨10, 10⟩⟩ 0).insertAll
          [⟨.line ⟨⟨1, 1⟩, ⟨9, 9⟩⟩⟩]).2.boundary) [] :=
  ⟨by decide, claim_C1_query_root_boundary_returns_inserted (fun _ => 0) _ _ (by decide)⟩

/-- Claim C3, counterexample to the claim as stated: inserting the
segment from (-5,5) to (5,5) into a fresh tree over the boundary
rectangle at (0,0) with dimensions (10,10) returns `false`, although the
segment is not entirely outside the boundary — its endpoint (5,5) lies
inside the boundary and the boundary overlaps the segment. -/
theorem claim_C3_counterexample :
    ((QuadTree.new ⟨⟨0, 0⟩, ⟨10, 10⟩⟩ 0).insert ⟨.line ⟨⟨-5, 5⟩, ⟨5, 5⟩⟩⟩).1 = false ∧
    Rectangle.containsPoint ⟨⟨0, 0⟩, ⟨10, 10⟩⟩ ⟨5, 5⟩ = true ∧
    Rectangle.overlaps ⟨⟨0, 0⟩, ⟨10, 10⟩⟩ (.line ⟨⟨-5, 5⟩, ⟨5, 5⟩⟩) = true := by
  decide

/-- Claim C3 as amended: on a coherent tree with non-negative boundary
dimensions, `insert` returns `false` exactly when the root boundary does
not fully contain the shape — so partial overlap with the root region is
also rejected, and `false` is still the only failure outcome. -/
theorem claim_C3_amended_insert_false_iff_not_contained (t : QuadTree) (r : QuadTreeNode)
    (hc : t.coherent = true) (hw : 0 ≤ t.boundary.dimensions.x)
    (hh : 0 ≤ t.boundary.dimensions.y) :
    (t.insert r).1 = false ↔ t.boundary.contains r.shape = false := by
  constructor
  · intro hf
    cases hb : t.boundary.contains r.shape with
    | false => rfl
    | true =>
      rw [QuadTree.insert_true_of_contains t r hc hb] at hf
      simp at hf
  · intro hb
    rw [QuadTree.insert_not_contained t r (QuadTree.coherent_childrenBoundaries t hc) hw hh hb]

/-- Witness for the amended C3 at a concrete tree and record. -/
theorem claim_C3_amended_witness :
    (QuadTree.new ⟨⟨0, 0⟩, ⟨10, 10⟩⟩ 0).coherent = true ∧
    ((0 : ℚ) ≤ 10 ∧ (0 : ℚ) ≤ 10) ∧
    (((QuadTree.new ⟨⟨0, 0⟩, ⟨10, 10⟩⟩ 0).insert ⟨.circle ⟨⟨20, 20⟩, 1⟩⟩).1 = false ↔
      (QuadTree.new ⟨⟨0, 0⟩, ⟨10, 10⟩⟩ 0).boundary.contains (.circle ⟨⟨20, 20⟩, 1⟩) = false) :=
  ⟨by decide, ⟨by norm_num, by norm_num⟩,
    claim_C3_amended_insert_false_iff_not_contained _ _ (by decide) (by decide) (by decide)⟩

/-- Claim C4: every tree state reachable through the public interface
from construction at the default depth 0 satisfies the depth invariant:
each node's depthLayer is below MAX_DEPTH = 8 and each child's
depthLayer is its parent's plus one (children being absent or all four
present holds by the shape of the `QuadTree` type). -/
theorem claim_C4_reachable_depth_invariant (t : QuadTree) (h : t.Reachable) :
    t.depthInv = true :=
  QuadTree.reachable_depthInv h

/-- Witness for C4: a tree reachable by one construction and one insert
(which cascades subdivisions down to depth 7) satisfies the invariant. -/
theorem claim_C4_witness :
    ((QuadTree.new ⟨⟨0, 0⟩, ⟨10, 10⟩⟩ 0).insert ⟨.point ⟨⟨1, 1⟩⟩⟩).2.Reachable ∧
    ((QuadTree.new ⟨⟨0, 0⟩, ⟨10, 10⟩⟩ 0).insert ⟨.point ⟨⟨1, 1⟩⟩⟩).2.depthInv = true :=
  ⟨.ins _ (.con _), claim_C4_reachable_depth_invariant _ (.ins _ (.con _))⟩

/-- Claim C5: on a tree whose stored child boundaries agree with its
boundary (as holds for every constructor-built tree) and whose boundary
has non-negative dimensions, inserting a record whose shape the root
boundary does not contain returns `false`, leaves the tree value — and
hence `size()` — completely unchanged, and stores nothing. -/
theorem claim_C5_insert_outside_rejected_unchanged (t : QuadTree) (r : QuadTreeNode)
    (hcb : t.childrenBoundaries = QuadTree.boundariesOf t.boundary)
    (hw : 0 ≤ t.boundary.dimensions.x) (hh : 0 ≤ t.boundary.dimensions.y)
    (h : t.boundary.contains r.shape = false) :
    t.insert r = (false, t) ∧ (t.insert r).2.size = t.size ∧
      (t.insert r).2.getAllNodes [] = t.getAllNodes [] := by
  have heq := QuadTree.insert_not_contained t r hcb hw hh h
  refine ⟨heq, ?_, ?_⟩ <;> rw [heq]

/-- Witness for C5 at a concrete tree and record. -/
theorem claim_C5_witness :
    ((QuadTree.new ⟨⟨0, 0⟩, ⟨10, 10⟩⟩ 0).childrenBoundaries =
      QuadTree.boundariesOf (QuadTree.new ⟨⟨0, 0⟩, ⟨10, 10⟩⟩ 0).boundary) ∧
    ((QuadTree.new ⟨⟨0, 0⟩, ⟨10, 10⟩⟩ 0).boundary.contains (.circle ⟨⟨20, 20⟩, 1⟩) = false) ∧
    (QuadTree.new ⟨⟨0, 0⟩, ⟨10, 10⟩⟩ 0).insert ⟨.circle ⟨⟨20, 20⟩, 1⟩⟩ =
      (false, QuadTree.new ⟨⟨0, 0⟩, ⟨10, 10⟩⟩ 0) :=
  ⟨by decide, by decide,
    (claim_C5_insert_outside_rejected_unchanged _ _ (by decide) (by decide)
      (by decide) (by decide)).1⟩

/-- Claim C6: the early-return branch at the top of `query` is never
taken — `Rectangle.intersects` returns an Array, which is truthy in
JavaScript even when empty — so `query` coincides with the variant
`queryNoGuard` that has the boundary-pruning branch removed: it always
proceeds to test the node's stored records and visit its children. -/
theorem claim_C6_query_never_prunes_by_boundary (S : ℚ → ℚ) (t : QuadTree)
    (range : Shape) (found : List QuadTreeNode) :
    t.query S range found = t.queryNoGuard S range found := by
  rw [QuadTree.query_eq_getAllNodes, QuadTree.queryNoGuard_eq_getAllNodes]

/-- Claim C10: `Vector2D.neq` returns exactly the same result as
`Vector2D.eq` — true precisely when both coordinates agree — rather than
the logical negation of `eq`. -/
theorem claim_C10_neq_equals_eq (a b : Vector2D) :
    a.neq b = a.eq b ∧ (a.neq b = true ↔ a.x = b.x ∧ a.y = b.y) := by
  simp [Vector2D.neq, Vector2D.eq]

/-- Claim C2 evaluated on the code: the two crossing segments return the
empty list (for every model of `Math.sqrt`; this path uses none).  The
source's `Vector2D.cross` computes `x1*x2 - y1*y2` instead of the 2D
cross product `x1*y2 - y1*x2`, flipping the sign of the denominator, so
the intersection parameter `rn` comes out as `-0.5` and the crossing is
rejected. -/
theorem claim_C2_line_line_crossing_returns_empty (S : ℚ → ℚ) :
    Shape.intersects S (.line ⟨⟨0, 0⟩, ⟨10, 10⟩⟩) (.line ⟨⟨0, 10⟩, ⟨10, 0⟩⟩) = [] := by
  show Line.intersectsLine ⟨⟨0, 0⟩, ⟨10, 10⟩⟩ ⟨⟨0, 10⟩, ⟨10, 0⟩⟩ = []
  decide

/-- Claim C7: the two circles of radius 5 centred at (0,0) and (8,0)
intersect in exactly the two points (4,3) and (4,-3), symmetric about
the line x = 4, for every model `S` of `Math.sqrt` that is exact at the
perfect squares 64 and 9 reached by the computation (IEEE-754
`Math.sqrt` is exact there). -/
theorem claim_C7_circle_circle_two_symmetric_points (S : ℚ → ℚ)
    (h64 : S 64 = 8) (h9 : S 9 = 3) :
    Circle.intersects S ⟨⟨0, 0⟩, 5⟩ (.circle ⟨⟨8, 0⟩, 5⟩) =
      [⟨4, 3⟩, ⟨4, -3⟩] := by
  show Circle.intersectsCircle S ⟨⟨0, 0⟩, 5⟩ ⟨⟨8, 0⟩, 5⟩ = _
  simp only [Circle.intersectsCircle, Vector2D.eq, Vector2D.subtractBy,
    Vector2D.magnitudeSquared, Circle.containsCircle, Vector2D.normalized,
    Vector2D.magnitude, Vector2D.perp, Vector2D.addBy, Vector2D.multiply]
  norm_num [h64, h9]

/-- Witness for C7 at a concrete interpretation of `Math.sqrt`. -/
theorem claim_C7_witness :
    (fun q : ℚ => if q = 64 then (8 : ℚ) else if q = 9 then 3 else 0) 64 = 8 ∧
    (fun q : ℚ => if q = 64 then (8 : ℚ) else if q = 9 then 3 else 0) 9 = 3 ∧
    Circle.intersects (fun q : ℚ => if q = 64 then (8 : ℚ) else if q = 9 then 3 else 0)
      ⟨⟨0, 0⟩, 5⟩ (.circle ⟨⟨8, 0⟩, 5⟩) = [⟨4, 3⟩, ⟨4, -3⟩] :=
  ⟨by norm_num, by norm_num,
    claim_C7_circle_circle_two_symmetric_points _ (by norm_num) (by norm_num)⟩

/-- Claim C8: the ray from the origin along (1,0) meets the circle of
radius 1 centred at (5,0) in exactly the two points (4,0) and (6,0),
with the nearer one (x = 4) first, for every model `S` of `Math.sqrt`
exact at the discriminant value 4. -/
theorem claim_C8_ray_circle_two_points_near_first (S : ℚ → ℚ) (h4 : S 4 = 2) :
    Ray.intersects S ⟨⟨0, 0⟩, ⟨1, 0⟩⟩ (.circle ⟨⟨5, 0⟩, 1⟩) =
      [⟨4, 0⟩, ⟨6, 0⟩] := by
  show Ray.intersectsCircle S ⟨⟨0, 0⟩, ⟨1, 0⟩⟩ ⟨⟨5, 0⟩, 1⟩ = _
  simp only [Ray.intersectsCircle, Vector2D.magnitudeSquared, Vector2D.dot,
    minMax, Vector2D.addBy, Vector2D.multiply]
  norm_num [h4]

/-- Witness for C8 at a concrete interpretation of `Math.sqrt`. -/
theorem claim_C8_witness :
    (fun q : ℚ => if q = 4 then (2 : ℚ) else 0) 4 = 2 ∧
    Ray.intersects (fun q : ℚ => if q = 4 then (2 : ℚ) else 0)
      ⟨⟨0, 0⟩, ⟨1, 0⟩⟩ (.circle ⟨⟨5, 0⟩, 1⟩) = [⟨4, 0⟩, ⟨6, 0⟩] :=
  ⟨by norm_num, claim_C8_ray_circle_two_points_near_first _ (by norm_num)⟩

/-- Claim C9: for every non-zero vector, `polar().cartesian()` recovers
the vector exactly over the reals, so the squared distance between the
round-tripped vector and the original is 0, below the 0.001 tolerance. -/
theorem claim_C9_polar_cartesian_roundtrip (v : RVector2D) (h : v ≠ ⟨0, 0⟩) :
    ((v.polar.cartesian).subtractBy v).magnitudeSquared < RVector2D.epsilon := by
  have hz : (⟨v.x, v.y⟩ : ℂ) ≠ 0 := by
    intro hc
    apply h
    have hx : v.x = 0 := congrArg Complex.re hc
    have hy : v.y = 0 := congrArg Complex.im hc
    cases v
    simp only at hx hy
    rw [hx, hy]
  have habs : Complex.abs ⟨v.x, v.y⟩ = v.magnitude := by
    rw [Complex.abs_apply, Complex.normSq_mk]
    rfl
  have hcos : Real.cos (atan2 v.y v.x) = v.x / v.magnitude := by
    rw [atan2, Complex.cos_arg hz]
    rw [habs]
  have hsin : Real.sin (atan2 v.y v.x) = v.y / v.magnitude := by
    rw [atan2, Complex.sin_arg]
    rw [habs]
  have hmagpos : 0 < v.magnitude := by
    rw [← habs]
    exact AbsoluteValue.pos Complex.abs hz
  have hx : v.polar.cartesian.x = v.x := by
    show Real.cos (atan2 v.y v.x) * v.magnitude = v.x
    rw [hcos, div_mul_cancel₀]
    exact ne_of_gt hmagpos
  have hy : v.polar.cartesian.y = v.y := by
    show Real.sin (atan2 v.y v.x) * v.magnitude = v.y
    rw [hsin, div_mul_cancel₀]
    exact ne_of_gt hmagpos
  show (v.polar.cartesian.x - v.x) * (v.polar.cartesian.x - v.x) +
    (v.polar.cartesian.y - v.y) * (v.polar.cartesian.y - v.y) < RVector2D.epsilon
  rw [hx, hy]
  norm_num [RVector2D.epsilon]

/-- Witness for C9 at the concrete vector (3, 0). -/
theorem claim_C9_witness :
    (⟨3, 0⟩ : RVector2D) ≠ ⟨0, 0⟩ ∧
    (((⟨3, 0⟩ : RVector2D).polar.cartesian).subtractBy ⟨3, 0⟩).magnitudeSquared <
      RVector2D.epsilon := by
  have h : (⟨3, 0⟩ : RVector2D) ≠ ⟨0, 0⟩ := by
    intro hc
    have h3 : (3 : ℝ) = 0 := congrArg RVector2D.x hc
    norm_num at h3
  exact ⟨h, claim_C9_polar_cartesian_roundtrip _ h⟩

end NeverEnding
